import Mathlib

/-!
Reader-writer semaphores of the MINIX IPC server

A shallow embedding of `servers/ipc/rwsem.c` and a verification of its
specification.

Modelling conventions.

* The static array `rwsem_list[MAX_RWSEM]` is a function from indices to
  records; an assignment to one element is `Function.update`.  Every access
  the handlers make is guarded by `rwsem_check_id` or by the modulo of the
  cursor, so only indices below `MAX_RWSEM` are ever read or written.
* A `struct rwsem_queue` (singly linked list with `first` and `last`
  pointers) is the list of the endpoints it holds, head first.
* `key_t`, `endpoint_t` and the `int` fields are integers.  The one `int`
  that a client can drive out of range is `readers_in`: every admitted
  `read_lock` increments it and nothing bounds it.  Signed overflow is
  undefined in ISO C; the server as compiled wraps around (32-bit two's
  complement), and that is what `int_inc` and `int_dec` store in
  `do_read_lock` and `do_read_unlock`.  The other `int` arithmetic stays in
  range: `writers_in` is 0 or 1, the wake-up loop of `do_write_unlock` counts
  from 0 the nodes of one queue, and `rwsem_count` and `rwsem_next` start at
  zero and are only incremented up to `MAX_RWSEM` (the latter modulo
  `MAX_RWSEM`), so these two are natural numbers.
* The result of `malloc` in `rwsem_queue_push` is an input of the lock
  requests.
* A handler yields `none` when an `assert` fails or when the free-slot scan
  of `do_rwsemget` would run forever; otherwise it yields the new table
  together with its return value and the messages it handed to `sendnb`, in
  order.
-/

namespace Rwsem

/-- Capacity of the table, `MAX_RWSEM` of `include/minix/rwsem.h`. -/
def MAX_RWSEM : Nat := 500

/-- Status codes used as return values and as `m_type` of the messages sent.
The numeric values live in `errno.h`, the handlers only use the names. -/
inductive Code where
  | OK
  | EAGAIN
  | ENOENT
  | EPERM
  | EINTR
  | ENOMEM
  deriving DecidableEq, Repr

/-- Endpoint of a client process. -/
abbrev endpoint_t := Int

/-- Semaphore key. -/
abbrev key_t := Int

/-- A message handed to `sendnb`: its `m_type` and its destination. -/
abbrev Sent := Code × endpoint_t

/-- Queue of waiting clients, head first. -/
abbrev rwsem_queue := List endpoint_t

/-- Empty queue, `rwsem_queue_init`. -/
def rwsem_queue_init : rwsem_queue := []

/-- Appends `who` when the node is allocated; the flag is the C return value. -/
def rwsem_queue_push (queue : rwsem_queue) (who : endpoint_t) (malloc_ok : Bool) :
    Bool × rwsem_queue :=
  if malloc_ok then (true, queue ++ [who]) else (false, queue)

/-- Removes the head; `assert(item)` fails on the empty queue. -/
def rwsem_queue_pop (queue : rwsem_queue) : Option (endpoint_t × rwsem_queue) :=
  match queue with
  | [] => none
  | who :: rest => some (who, rest)

/-- Emptiness test of a queue. -/
def rwsem_queue_empty (queue : rwsem_queue) : Bool :=
  queue.isEmpty

/-- Largest value of an `int` (32 bits). -/
def INT_MAX : Int := 2147483647

/-- Smallest value of an `int` (32 bits). -/
def INT_MIN : Int := -2147483648

/-- The value an `int` holds after `+= 1`: the increment wraps around at
`INT_MAX`. -/
def int_inc (x : Int) : Int := if x = INT_MAX then INT_MIN else x + 1

/-- The value an `int` holds after `-= 1`: the decrement wraps around at
`INT_MIN`. -/
def int_dec (x : Int) : Int := if x = INT_MIN then INT_MAX else x - 1

/-- States of a slot, `enum rwsem_state`. -/
inductive rwsem_state where
  | RWSEM_FREE
  | RWSEM_ACTIVE
  | RWSEM_CLOSED
  deriving DecidableEq, Repr

open rwsem_state Code

/-- One slot of the table, `struct rwsem`. -/
structure rwsem where
  state : rwsem_state
  key : key_t
  id : Int
  readers_in : Int
  writers_in : Int
  readers_waiting : rwsem_queue
  writers_waiting : rwsem_queue
  deriving DecidableEq, Repr

/-- Global data of the module. -/
structure State where
  rwsem_list : Nat → rwsem
  rwsem_count : Nat
  rwsem_next : Nat

/-- A zero-initialised slot. -/
def zero_slot : rwsem :=
  { state := RWSEM_FREE, key := 0, id := 0, readers_in := 0, writers_in := 0,
    readers_waiting := [], writers_waiting := [] }

/-- Table at server start: static storage is zero-initialised. -/
def init : State :=
  { rwsem_list := fun _ => zero_slot, rwsem_count := 0, rwsem_next := 0 }

/-- Assignment to `rwsem_list[i]`. -/
def State.store (s : State) (i : Nat) (r : rwsem) : State :=
  { s with rwsem_list := Function.update s.rwsem_list i r }

/-- What a handler produces besides the new table. -/
structure Output where
  ret : Code
  retid : Option Int
  sent : List Sent
  deriving DecidableEq, Repr

/-- Index of the first non-free slot registered under `key`, if any. -/
def rwsem_find (l : Nat → rwsem) (key : key_t) : Option Nat :=
  (List.range MAX_RWSEM).find? (fun i => (l i).state != RWSEM_FREE && (l i).key == key)

/-- No client inside; `assert(rwsem->state != RWSEM_FREE)` guards the test. -/
def rwsem_empty (r : rwsem) : Option Bool :=
  if r.state = RWSEM_FREE then none
  else some (r.readers_in == 0 && r.writers_in == 0)

/-- One wake-up loop of `rwsem_delete`: pops every endpoint and sends it
`EINTR`.  Yields the queue left over and the messages. -/
def delete_loop : rwsem_queue → rwsem_queue × List Sent
  | [] => ([], [])
  | who :: rest =>
    let (q, ms) := delete_loop rest
    (q, (EINTR, who) :: ms)

/-- Deletes an empty, closed semaphore, waking both queues with `EINTR`. -/
def rwsem_delete (r : rwsem) : Option (rwsem × List Sent) :=
  if r.state ≠ RWSEM_CLOSED then none
  else
    match rwsem_empty r with
    | none => none
    | some false => none
    | some true =>
      let (rq, rs) := delete_loop r.readers_waiting
      let (wq, ws) := delete_loop r.writers_waiting
      some ({ r with readers_waiting := rq, writers_waiting := wq, state := RWSEM_FREE },
            rs ++ ws)

/-- Does `id` name a non-free slot of the table? -/
def rwsem_check_id (l : Nat → rwsem) (id : Int) : Bool :=
  if id < 0 ∨ id ≥ (MAX_RWSEM : Int) then false
  else if (l id.toNat).state = RWSEM_FREE then false
  else true

/-- The scan `while (rwsem_list[rwsem_next].state != RWSEM_FREE)` of
`do_rwsemget`, started at `next`.  The cursor moves on a cycle of length
`MAX_RWSEM`, so a scan that has not stopped after `MAX_RWSEM` tests never
stops: `none`. -/
def find_free (l : Nat → rwsem) : Nat → Nat → Option Nat
  | 0, _ => none
  | fuel + 1, next =>
    if (l next).state = RWSEM_FREE then some next
    else find_free l fuel ((next + 1) % MAX_RWSEM)

/-- Handler of `IPC_RWSEMGET`. -/
def do_rwsemget (s : State) (key : key_t) : Option (State × Output) :=
  match rwsem_find s.rwsem_list key with
  | some i => some (s, { ret := OK, retid := some (s.rwsem_list i).id, sent := [] })
  | none =>
    if s.rwsem_count = MAX_RWSEM then
      some (s, { ret := EAGAIN, retid := none, sent := [] })
    else
      match find_free s.rwsem_list MAX_RWSEM s.rwsem_next with
      | none => none
      | some next =>
        let r : rwsem :=
          { state := RWSEM_ACTIVE, key := key, id := (next : Int), readers_in := 0,
            writers_in := 0, readers_waiting := rwsem_queue_init,
            writers_waiting := rwsem_queue_init }
        some ({ rwsem_list := Function.update s.rwsem_list next r,
                rwsem_count := s.rwsem_count + 1,
                rwsem_next := (next + 1) % MAX_RWSEM },
              { ret := OK, retid := some (next : Int), sent := [] })

/-- Handler of `IPC_RWSEMDEL`. -/
def do_rwsemdel (s : State) (id : Int) : Option (State × Output) :=
  if rwsem_check_id s.rwsem_list id = false then
    some (s, { ret := ENOENT, retid := none, sent := [] })
  else
    let r := s.rwsem_list id.toNat
    if r.state = RWSEM_CLOSED then
      some (s, { ret := EINTR, retid := none, sent := [] })
    else
      let r := { r with state := RWSEM_CLOSED }
      if r.readers_in = 0 ∧ r.writers_in = 0 then
        match rwsem_delete r with
        | none => none
        | some (r, ms) => some (s.store id.toNat r, { ret := OK, retid := none, sent := ms })
      else
        some (s.store id.toNat r, { ret := OK, retid := none, sent := [] })

/-- Handler of `IPC_READ_LOCK`; `who_e` is the caller.  The C function
returns the literal 0, the value of `OK`, which the dispatcher does not
forward. -/
def do_read_lock (s : State) (id : Int) (who_e : endpoint_t) (malloc_ok : Bool) :
    Option (State × Output) :=
  if rwsem_check_id s.rwsem_list id = false then
    some (s, { ret := OK, retid := none, sent := [(ENOENT, who_e)] })
  else
    let r := s.rwsem_list id.toNat
    if r.state = RWSEM_CLOSED then
      some (s, { ret := OK, retid := none, sent := [(EINTR, who_e)] })
    else if r.writers_in = 0 ∧ rwsem_queue_empty r.writers_waiting = true then
      some (s.store id.toNat { r with readers_in := int_inc r.readers_in },
            { ret := OK, retid := none, sent := [(OK, who_e)] })
    else
      match rwsem_queue_push r.readers_waiting who_e malloc_ok with
      | (false, q) =>
        some (s.store id.toNat { r with readers_waiting := q },
              { ret := OK, retid := none, sent := [(ENOMEM, who_e)] })
      | (true, q) =>
        some (s.store id.toNat { r with readers_waiting := q },
              { ret := OK, retid := none, sent := [] })

/-- Handler of `IPC_READ_UNLOCK`. -/
def do_read_unlock (s : State) (id : Int) : Option (State × Output) :=
  if rwsem_check_id s.rwsem_list id = false then
    some (s, { ret := ENOENT, retid := none, sent := [] })
  else
    let r := s.rwsem_list id.toNat
    if r.readers_in = 0 then
      some (s, { ret := EPERM, retid := none, sent := [] })
    else
      let r := { r with readers_in := int_dec r.readers_in }
      if r.readers_in = 0 then
        if r.state = RWSEM_CLOSED then
          match rwsem_delete r with
          | none => none
          | some (r, ms) => some (s.store id.toNat r, { ret := OK, retid := none, sent := ms })
        else if rwsem_queue_empty r.writers_waiting = false then
          let r := { r with writers_in := r.writers_in + 1 }
          match rwsem_queue_pop r.writers_waiting with
          | none => none
          | some (who, q) =>
            some (s.store id.toNat { r with writers_waiting := q },
                  { ret := OK, retid := none, sent := [(OK, who)] })
        else
          some (s.store id.toNat r, { ret := OK, retid := none, sent := [] })
      else
        some (s.store id.toNat r, { ret := OK, retid := none, sent := [] })

/-- Handler of `IPC_WRITE_LOCK`; `who_e` is the caller. -/
def do_write_lock (s : State) (id : Int) (who_e : endpoint_t) (malloc_ok : Bool) :
    Option (State × Output) :=
  if rwsem_check_id s.rwsem_list id = false then
    some (s, { ret := OK, retid := none, sent := [(ENOENT, who_e)] })
  else
    let r := s.rwsem_list id.toNat
    if r.state = RWSEM_CLOSED then
      some (s, { ret := OK, retid := none, sent := [(EINTR, who_e)] })
    else
      match rwsem_empty r with
      | none => none
      | some true =>
        some (s.store id.toNat { r with writers_in := r.writers_in + 1 },
              { ret := OK, retid := none, sent := [(OK, who_e)] })
      | some false =>
        match rwsem_queue_push r.writers_waiting who_e malloc_ok with
        | (false, q) =>
          some (s.store id.toNat { r with writers_waiting := q },
                { ret := OK, retid := none, sent := [(ENOMEM, who_e)] })
        | (true, q) =>
          some (s.store id.toNat { r with writers_waiting := q },
                { ret := OK, retid := none, sent := [] })

/-- The loop of `do_write_unlock` that lets the waiting readers in: each
turn increments `readers_in`, pops the head and sends it `OK`.  Yields the
queue left over, the final `readers_in` and the messages.  The count goes up by
one per queue node, and the nodes of a queue, allocated one by one, are fewer
than `INT_MAX`. -/
def let_in_readers : rwsem_queue → Int → rwsem_queue × Int × List Sent
  | [], n => ([], n, [])
  | who :: rest, n =>
    let (q, n', ms) := let_in_readers rest (n + 1)
    (q, n', (OK, who) :: ms)

/-- Handler of `IPC_WRITE_UNLOCK`. -/
def do_write_unlock (s : State) (id : Int) : Option (State × Output) :=
  if rwsem_check_id s.rwsem_list id = false then
    some (s, { ret := ENOENT, retid := none, sent := [] })
  else
    let r := s.rwsem_list id.toNat
    if r.writers_in = 0 then
      some (s, { ret := EPERM, retid := none, sent := [] })
    else
      let r := { r with writers_in := r.writers_in - 1 }
      if r.writers_in ≠ 0 then none
      else if r.state = RWSEM_CLOSED then
        match rwsem_delete r with
        | none => none
        | some (r, ms) => some (s.store id.toNat r, { ret := OK, retid := none, sent := ms })
      else if rwsem_queue_empty r.readers_waiting = false then
        match let_in_readers r.readers_waiting r.readers_in with
        | (q, n, ms) =>
          some (s.store id.toNat { r with readers_waiting := q, readers_in := n },
                { ret := OK, retid := none, sent := ms })
      else if rwsem_queue_empty r.writers_waiting = false then
        let r := { r with writers_in := r.writers_in + 1 }
        match rwsem_queue_pop r.writers_waiting with
        | none => none
        | some (who, q) =>
          some (s.store id.toNat { r with writers_waiting := q },
                { ret := OK, retid := none, sent := [(OK, who)] })
      else
        some (s.store id.toNat r, { ret := OK, retid := none, sent := [] })

/-- A request as the dispatcher delivers it: the call, its message field,
and for the lock calls the caller and the outcome of the allocation. -/
inductive Request where
  | get (key : key_t)
  | del (id : Int)
  | read_lock (id : Int) (who_e : endpoint_t) (malloc_ok : Bool)
  | read_unlock (id : Int)
  | write_lock (id : Int) (who_e : endpoint_t) (malloc_ok : Bool)
  | write_unlock (id : Int)
  deriving DecidableEq, Repr

/-- One dispatch. -/
def step (s : State) : Request → Option (State × Output)
  | .get key => do_rwsemget s key
  | .del id => do_rwsemdel s id
  | .read_lock id who_e malloc_ok => do_read_lock s id who_e malloc_ok
  | .read_unlock id => do_read_unlock s id
  | .write_lock id who_e malloc_ok => do_write_lock s id who_e malloc_ok
  | .write_unlock id => do_write_unlock s id

/-- Runs a sequence of requests, keeping only the final table. -/
def run (s : State) : List Request → Option State
  | [] => some s
  | req :: rest =>
    match step s req with
    | none => none
    | some (s', _) => run s' rest

/-- States reachable from the initial one by dispatching requests. -/
inductive Reachable : State → Prop where
  | init : Reachable init
  | step {s s' : State} {out : Output} (req : Request) :
      Reachable s → step s req = some (s', out) → Reachable s'

/-- Number of non-free slots of the table. -/
def nonfree_count (l : Nat → rwsem) : Nat :=
  (List.range MAX_RWSEM).countP (fun i => (l i).state != RWSEM_FREE)

/-- Consistency of the slot stored at index `i`. -/
structure slot_ok (i : Nat) (r : rwsem) : Prop where
  writers_bit : r.writers_in = 0 ∨ r.writers_in = 1
  excl : r.writers_in = 1 → r.readers_in = 0
  free_clean : r.state = RWSEM_FREE →
    r.readers_in = 0 ∧ r.writers_in = 0 ∧ r.readers_waiting = [] ∧ r.writers_waiting = []
  used_id : r.state ≠ RWSEM_FREE → r.id = (i : Int) ∧ i < MAX_RWSEM
  closed_held : r.state = RWSEM_CLOSED → r.readers_in ≠ 0 ∨ r.writers_in ≠ 0
  idle_clean : r.state = RWSEM_ACTIVE → r.readers_in = 0 → r.writers_in = 0 →
    r.readers_waiting = [] ∧ r.writers_waiting = []
  readers_wait : r.state = RWSEM_ACTIVE → r.writers_in = 0 → r.writers_waiting = [] →
    r.readers_waiting = []

/-- The invariant of the table between two dispatches. -/
structure Inv (s : State) : Prop where
  slots : ∀ i, slot_ok i (s.rwsem_list i)
  next_lt : s.rwsem_next < MAX_RWSEM
  count_le : s.rwsem_count ≤ MAX_RWSEM
  nonfree_le : nonfree_count s.rwsem_list ≤ s.rwsem_count
  key_unique : ∀ i j, (s.rwsem_list i).state ≠ RWSEM_FREE →
    (s.rwsem_list j).state ≠ RWSEM_FREE →
    (s.rwsem_list i).key = (s.rwsem_list j).key → i = j

/-- Effect of a handler that rewrites at most slot `i`: the new record is
consistent, is non-free only if the old one was, and keeps the key. -/
def SlotStep (s s' : State) (i : Nat) : Prop :=
  ∃ r', s' = s.store i r' ∧ slot_ok i r' ∧
    (r'.state ≠ RWSEM_FREE → (s.rwsem_list i).state ≠ RWSEM_FREE) ∧
    r'.key = (s.rwsem_list i).key

/-- Dispatches that never reclaim slot `i`: the slot is non-free after each
of them. -/
inductive Survives (i : Nat) : State → State → Prop where
  | refl (s : State) : Survives i s s
  | step {s s1 s2 : State} {out : Output} (req : Request) :
      Survives i s s1 → step s1 req = some (s2, out) →
      (s2.rwsem_list i).state ≠ RWSEM_FREE → Survives i s s2

/-- The table reached from the initial one by the given requests (the initial
table when a dispatch fails on the way). -/
def after (reqs : List Request) : State := (run init reqs).getD init

/-- The table after `n` creations under the keys `0, …, n-1`, started from the
initial table. -/
def filled (n : Nat) : State :=
  { rwsem_list := fun i =>
      if i < n then
        { state := RWSEM_ACTIVE, key := (i : Int), id := (i : Int), readers_in := 0,
          writers_in := 0, readers_waiting := [], writers_waiting := [] }
      else zero_slot,
    rwsem_count := n,
    rwsem_next := n % MAX_RWSEM }

/-- The requests `get(0), …, get(n-1)`. -/
def gets (n : Nat) : List Request :=
  (List.range n).map (fun k => Request.get (k : Int))

/-- The table once 500 semaphores were created and semaphore 0 was deleted. -/
def s_released : State :=
  (filled MAX_RWSEM).store 0
    { (filled MAX_RWSEM).rwsem_list 0 with
      readers_waiting := [], writers_waiting := [], state := RWSEM_FREE }

/-- One idle semaphore: `get(7)`. -/
def w_active : State := after [.get 7]

/-- Writer 11 holds semaphore 0; readers 12 and 13, then writer 14, wait. -/
def w_writer : State :=
  after [.get 7, .write_lock 0 11 true, .read_lock 0 12 true, .read_lock 0 13 true,
    .write_lock 0 14 true]

/-- Reader 11 holds semaphore 0; writer 12 waits. -/
def w_reader : State := after [.get 7, .read_lock 0 11 true, .write_lock 0 12 true]

/-- Semaphore 0 was deleted while writer 11 held it; reader 12 and writer 13
still wait. -/
def w_closed : State :=
  after [.get 7, .write_lock 0 11 true, .read_lock 0 12 true, .write_lock 0 13 true, .del 0]

/-- Two creations, then the first semaphore deleted: slot 0 is free again and
the cursor stands at 2. -/
def w_rotated : State := after [.get 7, .get 8, .del 0]

/-- A later table in which semaphore 0 of `w_active` is still alive. -/
def w_later : State := after [.get 7, .read_lock 0 5 true, .get 9]

/-- Two semaphores, under the keys 7 and 8. -/
def w_two : State := after [.get 7, .get 8]

/-- The table of `w_closed` once writer 11 has left: the deleted semaphore is
reclaimed. -/
def w_drained : State :=
  after [.get 7, .write_lock 0 11 true, .read_lock 0 12 true, .write_lock 0 13 true, .del 0,
    .write_unlock 0]

/-- A freshly created semaphore in slot `n` under `key`. -/
def fresh (key : key_t) (n : Nat) : rwsem :=
  { state := RWSEM_ACTIVE, key := key, id := (n : Int), readers_in := 0, writers_in := 0,
    readers_waiting := [], writers_waiting := [] }

/-- The table after the first `get(k)` on the initial table. -/
def s_first (k : key_t) : State :=
  { rwsem_list := Function.update init.rwsem_list 0 (fresh k 0),
    rwsem_count := 1, rwsem_next := 1 }

/-- The table after `get(k)` and `delete(0)`. -/
def s_gone (k : key_t) : State :=
  (s_first k).store 0 { fresh k 0 with state := RWSEM_FREE }

/-- The table after `get(k)`, `delete(0)` and a new `get(k)`. -/
def s_again (k : key_t) : State :=
  { rwsem_list := Function.update (s_gone k).rwsem_list 1 (fresh k 1),
    rwsem_count := 2, rwsem_next := 2 }

/-- The table in which semaphore 0, created under key 7, is held by `n`
readers: `get(7)` followed by `n` admitted `read_lock(0)`. -/
def s_readers (n : Nat) : State :=
  (s_first 7).store 0 { fresh 7 0 with readers_in := (n : Int) }

/-! ## Auxiliary lemmas -/

theorem delete_loop_eq (q : rwsem_queue) :
    delete_loop q = ([], q.map (fun who => (EINTR, who))) := by
  induction q with
  | nil => rfl
  | cons who rest ih => simp [delete_loop, ih]

theorem let_in_readers_eq (q : rwsem_queue) (n : Int) :
    let_in_readers q n = ([], n + q.length, q.map (fun who => (OK, who))) := by
  induction q generalizing n with
  | nil => simp [let_in_readers]
  | cons who rest ih => simp [let_in_readers, ih]; omega

theorem rwsem_delete_eq (r : rwsem) (hc : r.state = RWSEM_CLOSED)
    (hr : r.readers_in = 0) (hw : r.writers_in = 0) :
    rwsem_delete r =
      some ({ r with readers_waiting := [], writers_waiting := [], state := RWSEM_FREE },
        r.readers_waiting.map (fun who => (EINTR, who)) ++
          r.writers_waiting.map (fun who => (EINTR, who))) := by
  simp [rwsem_delete, rwsem_empty, hc, hr, hw, delete_loop_eq]

theorem rwsem_delete_some {r r' : rwsem} {ms : List Sent} (h : rwsem_delete r = some (r', ms)) :
    r.state = RWSEM_CLOSED ∧ r.readers_in = 0 ∧ r.writers_in = 0 := by
  unfold rwsem_delete rwsem_empty at h
  by_cases hc : r.state = RWSEM_CLOSED
  · by_cases hr : r.readers_in = 0
    · by_cases hw : r.writers_in = 0
      · exact ⟨hc, hr, hw⟩
      · have hb : (r.writers_in == 0) = false := by simpa using hw
        simp [hc, hr, hb] at h
    · have hb : (r.readers_in == 0) = false := by simpa using hr
      simp [hc, hb] at h
  · simp [hc] at h

theorem check_id_true {l : Nat → rwsem} {id : Int} (h : ¬ rwsem_check_id l id = false) :
    0 ≤ id ∧ id < (MAX_RWSEM : Int) ∧ (l id.toNat).state ≠ RWSEM_FREE := by
  unfold rwsem_check_id at h
  by_cases h1 : id < 0 ∨ id ≥ (MAX_RWSEM : Int)
  · simp [h1] at h
  · by_cases h2 : (l id.toNat).state = RWSEM_FREE
    · simp [h1, h2] at h
    · push_neg at h1
      exact ⟨h1.1, h1.2, h2⟩

theorem countP_le_of_imp (p q : Nat → Bool) (L : List Nat)
    (h : ∀ x ∈ L, p x = true → q x = true) : L.countP p ≤ L.countP q := by
  induction L with
  | nil => simp
  | cons a L ih =>
    have ih' := ih (fun x hx => h x (List.mem_cons_of_mem a hx))
    have ha := h a (List.mem_cons_self a L)
    simp only [List.countP_cons]
    by_cases hp : p a = true
    · simp [hp, ha hp, ih']
    · simp [hp]
      omega

theorem countP_le_succ (p q : Nat → Bool) (n : Nat) (L : List Nat) (hnd : L.Nodup)
    (h : ∀ x ∈ L, x ≠ n → p x = true → q x = true) : L.countP p ≤ L.countP q + 1 := by
  induction L with
  | nil => simp
  | cons a L ih =>
    rw [List.nodup_cons] at hnd
    simp only [List.countP_cons]
    by_cases han : a = n
    · subst han
      have : L.countP p ≤ L.countP q :=
        countP_le_of_imp p q L (fun x hx => h x (List.mem_cons_of_mem a hx)
          (fun e => hnd.1 (e ▸ hx)))
      split <;> split <;> omega
    · have ih' := ih hnd.2 (fun x hx => h x (List.mem_cons_of_mem a hx))
      have ha := h a (List.mem_cons_self a L) han
      by_cases hp : p a = true
      · simp [hp, ha hp]; omega
      · simp [hp]; omega

theorem nonfree_count_update_le (l : Nat → rwsem) (i : Nat) (r : rwsem)
    (h : r.state ≠ RWSEM_FREE → (l i).state ≠ RWSEM_FREE) :
    nonfree_count (Function.update l i r) ≤ nonfree_count l := by
  unfold nonfree_count
  apply countP_le_of_imp
  intro x _ hx
  by_cases hxi : x = i
  · subst hxi
    simp at hx ⊢
    exact h hx
  · simpa [Function.update_noteq hxi] using hx

theorem nonfree_count_update_succ (l : Nat → rwsem) (i : Nat) (r : rwsem) :
    nonfree_count (Function.update l i r) ≤ nonfree_count l + 1 := by
  unfold nonfree_count
  apply countP_le_succ _ _ i _ (List.nodup_range _)
  intro x _ hxi hx
  simpa [Function.update_noteq hxi] using hx

theorem exists_free_of_count_lt (l : Nat → rwsem) (h : nonfree_count l < MAX_RWSEM) :
    ∃ i, i < MAX_RWSEM ∧ (l i).state = RWSEM_FREE := by
  by_contra hne
  push_neg at hne
  have : nonfree_count l = (List.range MAX_RWSEM).length := by
    unfold nonfree_count
    rw [List.countP_eq_length]
    intro a ha
    simpa using hne a (List.mem_range.mp ha)
  simp at this
  omega

theorem find_free_spec (l : Nat → rwsem) (fuel c n : Nat) :
    find_free l fuel c = some n ↔
      ∃ k, k < fuel ∧ (Nat.iterate (fun x => (x + 1) % MAX_RWSEM) k c) = n ∧
        (l n).state = RWSEM_FREE ∧
        ∀ j, j < k → (l (Nat.iterate (fun x => (x + 1) % MAX_RWSEM) j c)).state ≠ RWSEM_FREE := by
  induction fuel generalizing c with
  | zero => simp [find_free]
  | succ fuel ih =>
    unfold find_free
    by_cases hf : (l c).state = RWSEM_FREE
    · simp only [hf, if_true, Option.some.injEq]
      constructor
      · rintro rfl
        exact ⟨0, by omega, rfl, hf, by intro j hj; omega⟩
      · rintro ⟨k, _, hk, _, hall⟩
        rcases k with _ | k
        · exact hk
        · exact absurd hf (hall 0 (by omega))
    · simp only [hf, if_false, ih]
      constructor
      · rintro ⟨k, hk, hn, hfree, hall⟩
        refine ⟨k + 1, by omega, hn, hfree, ?_⟩
        intro j hj
        rcases j with _ | j
        · exact hf
        · exact hall j (by omega)
      · rintro ⟨k, hk, hn, hfree, hall⟩
        rcases k with _ | k
        · simp at hn; subst hn; exact absurd hfree hf
        · exact ⟨k, by omega, hn, hfree, fun j hj => hall (j + 1) (by omega)⟩

theorem iterate_cursor (c k : Nat) :
    Nat.iterate (fun x => (x + 1) % MAX_RWSEM) k c = if k = 0 then c else (c + k) % MAX_RWSEM := by
  induction k generalizing c with
  | zero => simp
  | succ k ih =>
    rw [Function.iterate_succ_apply, ih]
    by_cases hk : k = 0
    · simp [hk]
    · simp [hk]
      unfold MAX_RWSEM; omega

theorem find_free_cyclic (l : Nat → rwsem) (c n : Nat) (hc : c < MAX_RWSEM) :
    find_free l MAX_RWSEM c = some n ↔
      ∃ k, k < MAX_RWSEM ∧ n = (c + k) % MAX_RWSEM ∧ (l n).state = RWSEM_FREE ∧
        ∀ j, j < k → (l ((c + j) % MAX_RWSEM)).state ≠ RWSEM_FREE := by
  have key : ∀ k, Nat.iterate (fun x => (x + 1) % MAX_RWSEM) k c = (c + k) % MAX_RWSEM := by
    intro k
    rw [iterate_cursor]
    split
    · next h => subst h; simp [Nat.mod_eq_of_lt hc]
    · rfl
  rw [find_free_spec]
  simp only [key]
  constructor
  · rintro ⟨k, hk, hn, hf, hall⟩
    exact ⟨k, hk, hn.symm, hf, hall⟩
  · rintro ⟨k, hk, hn, hf, hall⟩
    exact ⟨k, hk, hn.symm, hf, hall⟩

theorem find_free_some_of_free (l : Nat → rwsem) (c : Nat) (hc : c < MAX_RWSEM)
    (h : ∃ i, i < MAX_RWSEM ∧ (l i).state = RWSEM_FREE) :
    ∃ n, find_free l MAX_RWSEM c = some n := by
  obtain ⟨i, hi, hf⟩ := h
  have hex : ∃ k, k < MAX_RWSEM ∧ (l ((c + k) % MAX_RWSEM)).state = RWSEM_FREE := by
    refine ⟨(i + MAX_RWSEM - c) % MAX_RWSEM, Nat.mod_lt _ (by unfold MAX_RWSEM; omega), ?_⟩
    have : (c + (i + MAX_RWSEM - c) % MAX_RWSEM) % MAX_RWSEM = i := by
      unfold MAX_RWSEM at *; omega
    rw [this]; exact hf
  classical
  refine ⟨(c + Nat.find hex) % MAX_RWSEM, ?_⟩
  rw [find_free_cyclic l c _ hc]
  refine ⟨Nat.find hex, (Nat.find_spec hex).1, rfl, (Nat.find_spec hex).2, ?_⟩
  intro j hj hfj
  exact Nat.find_min hex hj ⟨lt_trans hj (Nat.find_spec hex).1, hfj⟩

theorem Inv.store_slot {s : State} (h : Inv s) (i : Nat) (r : rwsem) (hr : slot_ok i r)
    (hst : r.state ≠ RWSEM_FREE → (s.rwsem_list i).state ≠ RWSEM_FREE)
    (hkey : r.key = (s.rwsem_list i).key) : Inv (s.store i r) where
  slots := by
    intro j
    by_cases hj : j = i
    · subst hj; simpa [State.store] using hr
    · simpa [State.store, Function.update_noteq hj] using h.slots j
  next_lt := h.next_lt
  count_le := h.count_le
  nonfree_le := le_trans (nonfree_count_update_le _ _ _ hst) h.nonfree_le
  key_unique := by
    intro a b ha hb hk
    have ha' : (s.rwsem_list a).state ≠ RWSEM_FREE ∧
        ((s.store i r).rwsem_list a).key = (s.rwsem_list a).key := by
      by_cases e : a = i
      · subst e
        simp only [State.store, Function.update_same] at ha ⊢
        exact ⟨hst ha, hkey⟩
      · simp only [State.store, Function.update_noteq e] at ha ⊢
        exact ⟨ha, trivial⟩
    have hb' : (s.rwsem_list b).state ≠ RWSEM_FREE ∧
        ((s.store i r).rwsem_list b).key = (s.rwsem_list b).key := by
      by_cases e : b = i
      · subst e
        simp only [State.store, Function.update_same] at hb ⊢
        exact ⟨hst hb, hkey⟩
      · simp only [State.store, Function.update_noteq e] at hb ⊢
        exact ⟨hb, trivial⟩
    exact h.key_unique a b ha'.1 hb'.1 (by rw [← ha'.2, ← hb'.2]; exact hk)

theorem init_inv : Inv init where
  slots := by
    intro i
    constructor <;> simp [init, zero_slot]
  next_lt := by simp [init, MAX_RWSEM]
  count_le := by simp [init]
  nonfree_le := by simp [init, nonfree_count, zero_slot]
  key_unique := by
    intro i j hi
    simp [init, zero_slot] at hi

theorem slot_ok_grant_reader {i : Nat} {r : rwsem} (ok : slot_ok i r)
    (hnf : r.state ≠ RWSEM_FREE) (hcl : r.state ≠ RWSEM_CLOSED)
    (hw : r.writers_in = 0) (hq : r.writers_waiting = []) :
    slot_ok i { r with readers_in := int_inc r.readers_in } := by
  obtain ⟨k2, k3, k4, k5, k6, k7, k8⟩ := ok
  refine ⟨k2, ?_, fun h => absurd h hnf, k5, fun h => absurd h hcl, ?_, k8⟩
  · intro h
    have h1 : r.writers_in = 1 := h
    rw [hw] at h1
    exact absurd h1 (by decide)
  · intro hact _ _
    exact ⟨k8 hact hw hq, hq⟩

theorem slot_ok_push_reader {i : Nat} {r : rwsem} (who : endpoint_t) (ok : slot_ok i r)
    (hnf : r.state ≠ RWSEM_FREE)
    (hq : ¬ (r.writers_in = 0 ∧ r.writers_waiting = [])) :
    slot_ok i { r with readers_waiting := r.readers_waiting ++ [who] } := by
  obtain ⟨k2, k3, k4, k5, k6, k7, k8⟩ := ok
  refine ⟨k2, k3, fun h => absurd h hnf, k5, k6, ?_, ?_⟩
  · intro h1 h2 h3
    exact absurd ⟨h3, (k7 h1 h2 h3).2⟩ hq
  · intro _ h2 h3
    exact absurd ⟨h2, h3⟩ hq

theorem slot_ok_grant_writer {i : Nat} {r : rwsem} (ok : slot_ok i r)
    (hnf : r.state ≠ RWSEM_FREE) (hcl : r.state ≠ RWSEM_CLOSED)
    (hr : r.readers_in = 0) (hw : r.writers_in = 0) :
    slot_ok i { r with writers_in := r.writers_in + 1 } := by
  obtain ⟨k2, k3, k4, k5, k6, k7, k8⟩ := ok
  refine ⟨?_, fun _ => hr, fun h => absurd h hnf, k5, fun h => absurd h hcl, ?_, ?_⟩
  · show r.writers_in + 1 = 0 ∨ r.writers_in + 1 = 1
    omega
  · intro _ _ h
    have : r.writers_in + 1 = 0 := h
    omega
  · intro _ h
    have : r.writers_in + 1 = 0 := h
    omega

theorem slot_ok_push_writer {i : Nat} {r : rwsem} (who : endpoint_t) (ok : slot_ok i r)
    (hnf : r.state ≠ RWSEM_FREE)
    (hq : ¬ (r.readers_in = 0 ∧ r.writers_in = 0)) :
    slot_ok i { r with writers_waiting := r.writers_waiting ++ [who] } := by
  obtain ⟨k2, k3, k4, k5, k6, k7, k8⟩ := ok
  refine ⟨k2, k3, fun h => absurd h hnf, k5, k6, ?_, ?_⟩
  · intro _ h2 h3
    exact absurd ⟨h2, h3⟩ hq
  · intro _ _ h3
    have h3' : r.writers_waiting ++ [who] = [] := h3
    simp at h3'

theorem slot_ok_close {i : Nat} {r : rwsem} (ok : slot_ok i r)
    (hnf : r.state ≠ RWSEM_FREE)
    (hq : ¬ (r.readers_in = 0 ∧ r.writers_in = 0)) :
    slot_ok i { r with state := RWSEM_CLOSED } := by
  obtain ⟨k2, k3, k4, k5, k6, k7, k8⟩ := ok
  refine ⟨k2, k3, ?_, fun _ => k5 hnf, ?_, ?_, ?_⟩
  · intro h; cases h
  · intro _
    by_cases hr : r.readers_in = 0
    · exact Or.inr (fun hw => hq ⟨hr, hw⟩)
    · exact Or.inl hr
  · intro h; cases h
  · intro h; cases h

theorem slot_ok_freed {i : Nat} {r : rwsem} (ok : slot_ok i r)
    (hr : r.readers_in = 0) (hw : r.writers_in = 0) :
    slot_ok i { r with readers_waiting := [], writers_waiting := [], state := RWSEM_FREE } := by
  obtain ⟨k2, k3, k4, k5, k6, k7, k8⟩ := ok
  refine ⟨k2, k3, fun _ => ⟨hr, hw, rfl, rfl⟩, ?_, ?_, ?_, ?_⟩
  · intro h; exact absurd rfl h
  · intro h; cases h
  · intro h; cases h
  · intro h; cases h

theorem slot_ok_reader_leaves {i : Nat} {r : rwsem} (ok : slot_ok i r)
    (hnf : r.state ≠ RWSEM_FREE)
    (hr : r.readers_in ≠ 0) (hr' : int_dec r.readers_in ≠ 0) :
    slot_ok i { r with readers_in := int_dec r.readers_in } := by
  obtain ⟨k2, k3, k4, k5, k6, k7, k8⟩ := ok
  refine ⟨k2, ?_, fun h => absurd h hnf, k5, fun _ => Or.inl hr', ?_, k8⟩
  · intro h
    exact absurd (k3 h) hr
  · intro _ h
    exact absurd h hr'

theorem slot_ok_last_reader_idle {i : Nat} {r : rwsem} (ok : slot_ok i r)
    (hnf : r.state ≠ RWSEM_FREE) (hcl : r.state ≠ RWSEM_CLOSED)
    (hr : r.readers_in ≠ 0) (hr' : int_dec r.readers_in = 0)
    (hq : r.writers_waiting = []) :
    slot_ok i { r with readers_in := int_dec r.readers_in } := by
  obtain ⟨k2, k3, k4, k5, k6, k7, k8⟩ := ok
  have hw : r.writers_in = 0 := by
    rcases k2 with h | h
    · exact h
    · exact absurd (k3 h) hr
  refine ⟨k2, fun _ => hr', fun h => absurd h hnf, k5, fun h => absurd h hcl, ?_, k8⟩
  intro h _ _
  exact ⟨k8 h hw hq, hq⟩

theorem slot_ok_last_reader_wakes {i : Nat} {r : rwsem} {q : rwsem_queue}
    (ok : slot_ok i r)
    (hnf : r.state ≠ RWSEM_FREE) (hcl : r.state ≠ RWSEM_CLOSED)
    (hr : r.readers_in ≠ 0) (hr' : int_dec r.readers_in = 0) :
    slot_ok i { r with readers_in := int_dec r.readers_in, writers_in := r.writers_in + 1,
                       writers_waiting := q } := by
  obtain ⟨k2, k3, k4, k5, k6, k7, k8⟩ := ok
  have hw : r.writers_in = 0 := by
    rcases k2 with h | h
    · exact h
    · exact absurd (k3 h) hr
  refine ⟨?_, fun _ => hr', fun h => absurd h hnf, k5, fun h => absurd h hcl, ?_, ?_⟩
  · show r.writers_in + 1 = 0 ∨ r.writers_in + 1 = 1
    omega
  · intro _ _ h
    have : r.writers_in + 1 = 0 := h
    omega
  · intro _ h
    have : r.writers_in + 1 = 0 := h
    omega

theorem slot_ok_writer_leaves_readers {i : Nat} {r : rwsem} (ok : slot_ok i r)
    (hnf : r.state ≠ RWSEM_FREE) (hcl : r.state ≠ RWSEM_CLOSED)
    (hw : r.writers_in ≠ 0) (hq : r.readers_waiting ≠ []) :
    slot_ok i { r with writers_in := r.writers_in - 1, readers_waiting := [],
                       readers_in := r.readers_in + r.readers_waiting.length } := by
  obtain ⟨k2, k3, k4, k5, k6, k7, k8⟩ := ok
  have hw1 : r.writers_in = 1 := by
    rcases k2 with h | h
    · exact absurd h hw
    · exact h
  have hr0 : r.readers_in = 0 := k3 hw1
  have hlen : 0 < r.readers_waiting.length := List.length_pos.mpr hq
  refine ⟨?_, ?_, fun h => absurd h hnf, k5, fun h => absurd h hcl, ?_, fun _ _ _ => rfl⟩
  · show r.writers_in - 1 = 0 ∨ r.writers_in - 1 = 1
    omega
  · intro h
    have : r.writers_in - 1 = 1 := h
    omega
  · intro _ h
    have : r.readers_in + r.readers_waiting.length = 0 := h
    omega

theorem slot_ok_writer_leaves_writer {i : Nat} {r : rwsem} {q : rwsem_queue}
    (ok : slot_ok i r)
    (hnf : r.state ≠ RWSEM_FREE) (hcl : r.state ≠ RWSEM_CLOSED)
    (hw : r.writers_in ≠ 0) :
    slot_ok i { r with writers_in := r.writers_in - 1 + 1, writers_waiting := q } := by
  obtain ⟨k2, k3, k4, k5, k6, k7, k8⟩ := ok
  have hw1 : r.writers_in = 1 := by
    rcases k2 with h | h
    · exact absurd h hw
    · exact h
  refine ⟨?_, fun _ => k3 hw1, fun h => absurd h hnf, k5, fun h => absurd h hcl, ?_, ?_⟩
  · show r.writers_in - 1 + 1 = 0 ∨ r.writers_in - 1 + 1 = 1
    omega
  · intro _ _ h
    have : r.writers_in - 1 + 1 = 0 := h
    omega
  · intro _ h
    have : r.writers_in - 1 + 1 = 0 := h
    omega

theorem slot_ok_writer_leaves_idle {i : Nat} {r : rwsem} (ok : slot_ok i r)
    (hnf : r.state ≠ RWSEM_FREE) (hcl : r.state ≠ RWSEM_CLOSED)
    (hw : r.writers_in ≠ 0) (hrq : r.readers_waiting = []) (hwq : r.writers_waiting = []) :
    slot_ok i { r with writers_in := r.writers_in - 1 } := by
  obtain ⟨k2, k3, k4, k5, k6, k7, k8⟩ := ok
  have hw1 : r.writers_in = 1 := by
    rcases k2 with h | h
    · exact absurd h hw
    · exact h
  refine ⟨?_, ?_, fun h => absurd h hnf, k5, fun h => absurd h hcl,
    fun _ _ _ => ⟨hrq, hwq⟩, fun _ _ _ => hrq⟩
  · show r.writers_in - 1 = 0 ∨ r.writers_in - 1 = 1
    omega
  · intro h
    have : r.writers_in - 1 = 1 := h
    omega

theorem queue_empty_true {q : rwsem_queue} : rwsem_queue_empty q = true ↔ q = [] := by
  cases q <;> simp [rwsem_queue_empty]

theorem queue_empty_false {q : rwsem_queue} : rwsem_queue_empty q = false ↔ q ≠ [] := by
  cases q <;> simp [rwsem_queue_empty]

theorem check_id_eq_true {l : Nat → rwsem} {id : Int} :
    rwsem_check_id l id = true ↔
      0 ≤ id ∧ id < (MAX_RWSEM : Int) ∧ (l id.toNat).state ≠ RWSEM_FREE := by
  unfold rwsem_check_id
  by_cases h1 : id < 0 ∨ id ≥ (MAX_RWSEM : Int)
  · simp only [h1, if_true]
    constructor
    · intro h; cases h
    · rintro ⟨a, b, _⟩; omega
  · by_cases h2 : (l id.toNat).state = RWSEM_FREE
    · simp [h1, h2]
    · simp only [h1, h2, if_false]
      push_neg at h1
      simp [h1.1, h1.2, h2]

theorem check_id_eq_false {l : Nat → rwsem} {id : Int} :
    rwsem_check_id l id = false ↔
      (id < 0 ∨ (MAX_RWSEM : Int) ≤ id ∨ (l id.toNat).state = RWSEM_FREE) := by
  rw [← Bool.not_eq_true, check_id_eq_true]
  constructor
  · intro h
    by_contra hn
    push_neg at hn
    exact h ⟨hn.1, hn.2.1, hn.2.2⟩
  · rintro h ⟨a, b, c⟩
    rcases h with h | h | h
    · omega
    · omega
    · exact c h

theorem store_self (s : State) (i : Nat) : s.store i (s.rwsem_list i) = s := by
  simp [State.store]

theorem read_lock_invalid {s : State} {id : Int} (who : endpoint_t) (m : Bool)
    (hc : rwsem_check_id s.rwsem_list id = false) :
    do_read_lock s id who m = some (s, { ret := OK, retid := none, sent := [(ENOENT, who)] }) := by
  simp [do_read_lock, hc]

theorem read_lock_closed {s : State} {id : Int} (who : endpoint_t) (m : Bool)
    (hc : rwsem_check_id s.rwsem_list id = true)
    (hcl : (s.rwsem_list id.toNat).state = RWSEM_CLOSED) :
    do_read_lock s id who m = some (s, { ret := OK, retid := none, sent := [(EINTR, who)] }) := by
  simp [do_read_lock, hc, hcl]

theorem read_lock_grant {s : State} {id : Int} (who : endpoint_t) (m : Bool)
    (hc : rwsem_check_id s.rwsem_list id = true)
    (hcl : (s.rwsem_list id.toNat).state ≠ RWSEM_CLOSED)
    (hw : (s.rwsem_list id.toNat).writers_in = 0)
    (hq : (s.rwsem_list id.toNat).writers_waiting = []) :
    do_read_lock s id who m =
      some (s.store id.toNat { s.rwsem_list id.toNat with
              readers_in := int_inc (s.rwsem_list id.toNat).readers_in },
            { ret := OK, retid := none, sent := [(OK, who)] }) := by
  simp [do_read_lock, hc, hcl, hw, hq, rwsem_queue_empty]

theorem read_lock_nomem {s : State} {id : Int} (who : endpoint_t)
    (hc : rwsem_check_id s.rwsem_list id = true)
    (hcl : (s.rwsem_list id.toNat).state ≠ RWSEM_CLOSED)
    (hq : ¬ ((s.rwsem_list id.toNat).writers_in = 0 ∧
      (s.rwsem_list id.toNat).writers_waiting = [])) :
    do_read_lock s id who false =
      some (s, { ret := OK, retid := none, sent := [(ENOMEM, who)] }) := by
  have hq' : ¬ ((s.rwsem_list id.toNat).writers_in = 0 ∧
      rwsem_queue_empty (s.rwsem_list id.toNat).writers_waiting = true) := by
    rwa [queue_empty_true]
  unfold do_read_lock
  simp only [hc, Bool.true_eq_false, if_false, hcl, hq', rwsem_queue_push]
  exact congrArg (fun t => some (t, _)) (store_self s id.toNat)

theorem read_lock_queue {s : State} {id : Int} (who : endpoint_t)
    (hc : rwsem_check_id s.rwsem_list id = true)
    (hcl : (s.rwsem_list id.toNat).state ≠ RWSEM_CLOSED)
    (hq : ¬ ((s.rwsem_list id.toNat).writers_in = 0 ∧
      (s.rwsem_list id.toNat).writers_waiting = [])) :
    do_read_lock s id who true =
      some (s.store id.toNat { s.rwsem_list id.toNat with
              readers_waiting := (s.rwsem_list id.toNat).readers_waiting ++ [who] },
            { ret := OK, retid := none, sent := [] }) := by
  have hq' : ¬ ((s.rwsem_list id.toNat).writers_in = 0 ∧
      rwsem_queue_empty (s.rwsem_list id.toNat).writers_waiting = true) := by
    rwa [queue_empty_true]
  unfold do_read_lock
  simp only [hc, Bool.true_eq_false, if_false, hcl, hq', rwsem_queue_push, if_true]

theorem write_lock_invalid {s : State} {id : Int} (who : endpoint_t) (m : Bool)
    (hc : rwsem_check_id s.rwsem_list id = false) :
    do_write_lock s id who m =
      some (s, { ret := OK, retid := none, sent := [(ENOENT, who)] }) := by
  simp [do_write_lock, hc]

theorem write_lock_closed {s : State} {id : Int} (who : endpoint_t) (m : Bool)
    (hc : rwsem_check_id s.rwsem_list id = true)
    (hcl : (s.rwsem_list id.toNat).state = RWSEM_CLOSED) :
    do_write_lock s id who m =
      some (s, { ret := OK, retid := none, sent := [(EINTR, who)] }) := by
  simp [do_write_lock, hc, hcl]

theorem rwsem_empty_true {r : rwsem} (hnf : r.state ≠ RWSEM_FREE)
    (hr : r.readers_in = 0) (hw : r.writers_in = 0) : rwsem_empty r = some true := by
  simp [rwsem_empty, hnf, hr, hw]

theorem rwsem_empty_false {r : rwsem} (hnf : r.state ≠ RWSEM_FREE)
    (h : ¬ (r.readers_in = 0 ∧ r.writers_in = 0)) : rwsem_empty r = some false := by
  have hb : (r.readers_in == 0 && r.writers_in == 0) = false := by simpa using h
  simp [rwsem_empty, hnf, hb]

theorem write_lock_grant {s : State} {id : Int} (who : endpoint_t) (m : Bool)
    (hc : rwsem_check_id s.rwsem_list id = true)
    (hcl : (s.rwsem_list id.toNat).state ≠ RWSEM_CLOSED)
    (hr : (s.rwsem_list id.toNat).readers_in = 0)
    (hw : (s.rwsem_list id.toNat).writers_in = 0) :
    do_write_lock s id who m =
      some (s.store id.toNat { s.rwsem_list id.toNat with
              writers_in := (s.rwsem_list id.toNat).writers_in + 1 },
            { ret := OK, retid := none, sent := [(OK, who)] }) := by
  have hnf := (check_id_eq_true.mp hc).2.2
  unfold do_write_lock
  simp only [hc, Bool.true_eq_false, if_false, hcl, rwsem_empty_true hnf hr hw]

theorem write_lock_nomem {s : State} {id : Int} (who : endpoint_t)
    (hc : rwsem_check_id s.rwsem_list id = true)
    (hcl : (s.rwsem_list id.toNat).state ≠ RWSEM_CLOSED)
    (he : ¬ ((s.rwsem_list id.toNat).readers_in = 0 ∧
      (s.rwsem_list id.toNat).writers_in = 0)) :
    do_write_lock s id who false =
      some (s, { ret := OK, retid := none, sent := [(ENOMEM, who)] }) := by
  have hnf := (check_id_eq_true.mp hc).2.2
  unfold do_write_lock
  simp only [hc, Bool.true_eq_false, if_false, hcl, rwsem_empty_false hnf he, rwsem_queue_push]
  exact congrArg (fun t => some (t, _)) (store_self s id.toNat)

theorem write_lock_queue {s : State} {id : Int} (who : endpoint_t)
    (hc : rwsem_check_id s.rwsem_list id = true)
    (hcl : (s.rwsem_list id.toNat).state ≠ RWSEM_CLOSED)
    (he : ¬ ((s.rwsem_list id.toNat).readers_in = 0 ∧
      (s.rwsem_list id.toNat).writers_in = 0)) :
    do_write_lock s id who true =
      some (s.store id.toNat { s.rwsem_list id.toNat with
              writers_waiting := (s.rwsem_list id.toNat).writers_waiting ++ [who] },
            { ret := OK, retid := none, sent := [] }) := by
  have hnf := (check_id_eq_true.mp hc).2.2
  unfold do_write_lock
  simp only [hc, Bool.true_eq_false, if_false, hcl, rwsem_empty_false hnf he, rwsem_queue_push,
    if_true]

theorem del_invalid {s : State} {id : Int}
    (hc : rwsem_check_id s.rwsem_list id = false) :
    do_rwsemdel s id = some (s, { ret := ENOENT, retid := none, sent := [] }) := by
  simp [do_rwsemdel, hc]

theorem del_closed {s : State} {id : Int}
    (hc : rwsem_check_id s.rwsem_list id = true)
    (hcl : (s.rwsem_list id.toNat).state = RWSEM_CLOSED) :
    do_rwsemdel s id = some (s, { ret := EINTR, retid := none, sent := [] }) := by
  simp [do_rwsemdel, hc, hcl]

theorem del_empty {s : State} {id : Int}
    (hc : rwsem_check_id s.rwsem_list id = true)
    (hcl : (s.rwsem_list id.toNat).state ≠ RWSEM_CLOSED)
    (hr : (s.rwsem_list id.toNat).readers_in = 0)
    (hw : (s.rwsem_list id.toNat).writers_in = 0) :
    do_rwsemdel s id =
      some (s.store id.toNat { s.rwsem_list id.toNat with
              readers_waiting := [], writers_waiting := [], state := RWSEM_FREE },
            { ret := OK, retid := none,
              sent := (s.rwsem_list id.toNat).readers_waiting.map (fun who => (EINTR, who)) ++
                (s.rwsem_list id.toNat).writers_waiting.map (fun who => (EINTR, who)) }) := by
  unfold do_rwsemdel
  simp only [hc, Bool.true_eq_false, if_false, hcl, hr, hw, and_self, if_true]
  rw [rwsem_delete_eq _ rfl rfl rfl]

theorem del_held {s : State} {id : Int}
    (hc : rwsem_check_id s.rwsem_list id = true)
    (hcl : (s.rwsem_list id.toNat).state ≠ RWSEM_CLOSED)
    (he : ¬ ((s.rwsem_list id.toNat).readers_in = 0 ∧
      (s.rwsem_list id.toNat).writers_in = 0)) :
    do_rwsemdel s id =
      some (s.store id.toNat { s.rwsem_list id.toNat with state := RWSEM_CLOSED },
            { ret := OK, retid := none, sent := [] }) := by
  unfold do_rwsemdel
  simp only [hc, Bool.true_eq_false, if_false, hcl, he]

theorem read_unlock_invalid {s : State} {id : Int}
    (hc : rwsem_check_id s.rwsem_list id = false) :
    do_read_unlock s id = some (s, { ret := ENOENT, retid := none, sent := [] }) := by
  simp [do_read_unlock, hc]

theorem read_unlock_eperm {s : State} {id : Int}
    (hc : rwsem_check_id s.rwsem_list id = true)
    (hr : (s.rwsem_list id.toNat).readers_in = 0) :
    do_read_unlock s id = some (s, { ret := EPERM, retid := none, sent := [] }) := by
  simp [do_read_unlock, hc, hr]

theorem read_unlock_not_last {s : State} {id : Int}
    (hc : rwsem_check_id s.rwsem_list id = true)
    (hr : (s.rwsem_list id.toNat).readers_in ≠ 0)
    (hr' : int_dec (s.rwsem_list id.toNat).readers_in ≠ 0) :
    do_read_unlock s id =
      some (s.store id.toNat { s.rwsem_list id.toNat with
              readers_in := int_dec (s.rwsem_list id.toNat).readers_in },
            { ret := OK, retid := none, sent := [] }) := by
  unfold do_read_unlock
  simp only [hc, Bool.true_eq_false, if_false, hr, hr']

theorem read_unlock_drain {s : State} {id : Int}
    (hc : rwsem_check_id s.rwsem_list id = true)
    (hr : (s.rwsem_list id.toNat).readers_in ≠ 0)
    (hr' : int_dec (s.rwsem_list id.toNat).readers_in = 0)
    (hcl : (s.rwsem_list id.toNat).state = RWSEM_CLOSED)
    (hw : (s.rwsem_list id.toNat).writers_in = 0) :
    do_read_unlock s id =
      some (s.store id.toNat { s.rwsem_list id.toNat with
              readers_in := int_dec (s.rwsem_list id.toNat).readers_in,
              readers_waiting := [], writers_waiting := [], state := RWSEM_FREE },
            { ret := OK, retid := none,
              sent := (s.rwsem_list id.toNat).readers_waiting.map (fun who => (EINTR, who)) ++
                (s.rwsem_list id.toNat).writers_waiting.map (fun who => (EINTR, who)) }) := by
  unfold do_read_unlock
  simp only [hc, Bool.true_eq_false, if_false, hr, hr', hcl, if_true]
  rw [rwsem_delete_eq { s.rwsem_list id.toNat with state := RWSEM_CLOSED, readers_in := 0 } rfl rfl hw]

theorem read_unlock_wake {s : State} {id : Int} {who : endpoint_t} {q : rwsem_queue}
    (hc : rwsem_check_id s.rwsem_list id = true)
    (hr : (s.rwsem_list id.toNat).readers_in ≠ 0)
    (hr' : int_dec (s.rwsem_list id.toNat).readers_in = 0)
    (hcl : (s.rwsem_list id.toNat).state ≠ RWSEM_CLOSED)
    (hq : (s.rwsem_list id.toNat).writers_waiting = who :: q) :
    do_read_unlock s id =
      some (s.store id.toNat { s.rwsem_list id.toNat with
              readers_in := int_dec (s.rwsem_list id.toNat).readers_in,
              writers_in := (s.rwsem_list id.toNat).writers_in + 1,
              writers_waiting := q },
            { ret := OK, retid := none, sent := [(OK, who)] }) := by
  unfold do_read_unlock
  simp only [hc, Bool.true_eq_false, if_false, hr, hr', hcl, if_true, hq, rwsem_queue_empty,
    List.isEmpty_cons, rwsem_queue_pop]

theorem read_unlock_idle {s : State} {id : Int}
    (hc : rwsem_check_id s.rwsem_list id = true)
    (hr : (s.rwsem_list id.toNat).readers_in ≠ 0)
    (hr' : int_dec (s.rwsem_list id.toNat).readers_in = 0)
    (hcl : (s.rwsem_list id.toNat).state ≠ RWSEM_CLOSED)
    (hq : (s.rwsem_list id.toNat).writers_waiting = []) :
    do_read_unlock s id =
      some (s.store id.toNat { s.rwsem_list id.toNat with
              readers_in := int_dec (s.rwsem_list id.toNat).readers_in },
            { ret := OK, retid := none, sent := [] }) := by
  unfold do_read_unlock
  simp only [hc, Bool.true_eq_false, if_false, hr, hr', hcl, if_true, hq, rwsem_queue_empty,
    List.isEmpty_nil]

theorem write_unlock_invalid {s : State} {id : Int}
    (hc : rwsem_check_id s.rwsem_list id = false) :
    do_write_unlock s id = some (s, { ret := ENOENT, retid := none, sent := [] }) := by
  simp [do_write_unlock, hc]

theorem write_unlock_eperm {s : State} {id : Int}
    (hc : rwsem_check_id s.rwsem_list id = true)
    (hw : (s.rwsem_list id.toNat).writers_in = 0) :
    do_write_unlock s id = some (s, { ret := EPERM, retid := none, sent := [] }) := by
  simp [do_write_unlock, hc, hw]

theorem write_unlock_assert {s : State} {id : Int}
    (hc : rwsem_check_id s.rwsem_list id = true)
    (hw : (s.rwsem_list id.toNat).writers_in ≠ 0)
    (hw' : (s.rwsem_list id.toNat).writers_in - 1 ≠ 0) :
    do_write_unlock s id = none := by
  unfold do_write_unlock
  simp only [hc, Bool.true_eq_false, if_false, hw, ne_eq, hw', not_false_eq_true, if_true]

theorem write_unlock_drain {s : State} {id : Int}
    (hc : rwsem_check_id s.rwsem_list id = true)
    (hw : (s.rwsem_list id.toNat).writers_in ≠ 0)
    (hw' : (s.rwsem_list id.toNat).writers_in - 1 = 0)
    (hcl : (s.rwsem_list id.toNat).state = RWSEM_CLOSED)
    (hr : (s.rwsem_list id.toNat).readers_in = 0) :
    do_write_unlock s id =
      some (s.store id.toNat { s.rwsem_list id.toNat with
              writers_in := (s.rwsem_list id.toNat).writers_in - 1,
              readers_waiting := [], writers_waiting := [], state := RWSEM_FREE },
            { ret := OK, retid := none,
              sent := (s.rwsem_list id.toNat).readers_waiting.map (fun who => (EINTR, who)) ++
                (s.rwsem_list id.toNat).writers_waiting.map (fun who => (EINTR, who)) }) := by
  unfold do_write_unlock
  simp only [hc, Bool.true_eq_false, if_false, hw, ne_eq, hw', not_true_eq_false, hcl, if_true]
  rw [rwsem_delete_eq { s.rwsem_list id.toNat with state := RWSEM_CLOSED, writers_in := 0 } rfl hr rfl]

theorem write_unlock_readers {s : State} {id : Int}
    (hc : rwsem_check_id s.rwsem_list id = true)
    (hw : (s.rwsem_list id.toNat).writers_in ≠ 0)
    (hw' : (s.rwsem_list id.toNat).writers_in - 1 = 0)
    (hcl : (s.rwsem_list id.toNat).state ≠ RWSEM_CLOSED)
    (hq : (s.rwsem_list id.toNat).readers_waiting ≠ []) :
    do_write_unlock s id =
      some (s.store id.toNat { s.rwsem_list id.toNat with
              writers_in := (s.rwsem_list id.toNat).writers_in - 1,
              readers_waiting := [],
              readers_in := (s.rwsem_list id.toNat).readers_in +
                (s.rwsem_list id.toNat).readers_waiting.length },
            { ret := OK, retid := none,
              sent := (s.rwsem_list id.toNat).readers_waiting.map (fun who => (OK, who)) }) := by
  unfold do_write_unlock
  simp only [hc, Bool.true_eq_false, if_false, hw, ne_eq, hw', not_true_eq_false, hcl,
    queue_empty_false.mpr hq, if_true, let_in_readers_eq]

theorem write_unlock_writer {s : State} {id : Int} {who : endpoint_t} {q : rwsem_queue}
    (hc : rwsem_check_id s.rwsem_list id = true)
    (hw : (s.rwsem_list id.toNat).writers_in ≠ 0)
    (hw' : (s.rwsem_list id.toNat).writers_in - 1 = 0)
    (hcl : (s.rwsem_list id.toNat).state ≠ RWSEM_CLOSED)
    (hrq : (s.rwsem_list id.toNat).readers_waiting = [])
    (hq : (s.rwsem_list id.toNat).writers_waiting = who :: q) :
    do_write_unlock s id =
      some (s.store id.toNat { s.rwsem_list id.toNat with
              writers_in := (s.rwsem_list id.toNat).writers_in - 1 + 1,
              writers_waiting := q },
            { ret := OK, retid := none, sent := [(OK, who)] }) := by
  unfold do_write_unlock
  simp only [hc, Bool.true_eq_false, if_false, hw, ne_eq, hw', not_true_eq_false, hcl,
    hrq, hq, rwsem_queue_empty, List.isEmpty_nil, List.isEmpty_cons, if_true, rwsem_queue_pop]

theorem write_unlock_idle {s : State} {id : Int}
    (hc : rwsem_check_id s.rwsem_list id = true)
    (hw : (s.rwsem_list id.toNat).writers_in ≠ 0)
    (hw' : (s.rwsem_list id.toNat).writers_in - 1 = 0)
    (hcl : (s.rwsem_list id.toNat).state ≠ RWSEM_CLOSED)
    (hrq : (s.rwsem_list id.toNat).readers_waiting = [])
    (hq : (s.rwsem_list id.toNat).writers_waiting = []) :
    do_write_unlock s id =
      some (s.store id.toNat { s.rwsem_list id.toNat with
              writers_in := (s.rwsem_list id.toNat).writers_in - 1 },
            { ret := OK, retid := none, sent := [] }) := by
  unfold do_write_unlock
  simp only [hc, Bool.true_eq_false, if_false, hw, ne_eq, hw', not_true_eq_false, hcl,
    hrq, hq, rwsem_queue_empty, List.isEmpty_nil, if_true]

theorem slot_ok_free {i : Nat} {r : rwsem} (hs : r.state = RWSEM_FREE)
    (hr : r.readers_in = 0) (hw : r.writers_in = 0)
    (hrq : r.readers_waiting = []) (hwq : r.writers_waiting = []) : slot_ok i r := by
  refine ⟨Or.inl hw, fun _ => hr, fun _ => ⟨hr, hw, hrq, hwq⟩, fun h => absurd hs h,
    ?_, fun _ _ _ => ⟨hrq, hwq⟩, fun _ _ _ => hrq⟩
  intro h
  rw [hs] at h
  cases h

theorem slot_writers_zero {i : Nat} {r : rwsem} (ok : slot_ok i r) (hr : r.readers_in ≠ 0) :
    r.writers_in = 0 := by
  rcases ok.writers_bit with h | h
  · exact h
  · exact absurd (ok.excl h) hr

theorem slot_writers_one {i : Nat} {r : rwsem} (ok : slot_ok i r) (hw : r.writers_in ≠ 0) :
    r.writers_in = 1 := by
  rcases ok.writers_bit with h | h
  · exact absurd h hw
  · exact h

theorem some_pair_inj {s s' : State} {o o' : Output} (h : some (s, o) = some (s', o')) :
    s = s' ∧ o = o' := by
  simpa using h

theorem SlotStep.same {s : State} (h : Inv s) (i : Nat) : SlotStep s s i :=
  ⟨s.rwsem_list i, (store_self s i).symm, h.slots i, fun hnf => hnf, rfl⟩

theorem SlotStep.inv {s s' : State} {i : Nat} (h : Inv s) (hs : SlotStep s s' i) : Inv s' := by
  obtain ⟨r', e, ok, hst, hkey⟩ := hs
  rw [e]
  exact h.store_slot i r' ok hst hkey

theorem SlotStep.key {s s' : State} {i : Nat} (hs : SlotStep s s' i) (j : Nat) :
    (s'.rwsem_list j).key = (s.rwsem_list j).key := by
  obtain ⟨r', e, _, _, hkey⟩ := hs
  rw [e]
  by_cases hj : j = i
  · subst hj
    simp only [State.store, Function.update_same]
    exact hkey
  · simp only [State.store, Function.update_noteq hj]

theorem do_read_lock_shape {s s' : State} {out : Output} {id : Int} {who : endpoint_t}
    {m : Bool} (h : Inv s) (hs : do_read_lock s id who m = some (s', out)) : SlotStep s s' id.toNat := by
  by_cases hc : rwsem_check_id s.rwsem_list id = true
  · have hnf := (check_id_eq_true.mp hc).2.2
    have ok := h.slots id.toNat
    by_cases hcl : (s.rwsem_list id.toNat).state = RWSEM_CLOSED
    · rw [read_lock_closed who m hc hcl] at hs
      rw [← (some_pair_inj hs).1]; exact SlotStep.same h _
    · by_cases hq : (s.rwsem_list id.toNat).writers_in = 0 ∧
          (s.rwsem_list id.toNat).writers_waiting = []
      · rw [read_lock_grant who m hc hcl hq.1 hq.2] at hs
        rw [← (some_pair_inj hs).1]
        exact ⟨_, rfl, (slot_ok_grant_reader ok hnf hcl hq.1 hq.2), (fun _ => hnf), rfl⟩
      · cases m
        · rw [read_lock_nomem who hc hcl hq] at hs
          rw [← (some_pair_inj hs).1]; exact SlotStep.same h _
        · rw [read_lock_queue who hc hcl hq] at hs
          rw [← (some_pair_inj hs).1]
          exact ⟨_, rfl, (slot_ok_push_reader who ok hnf hq), (fun _ => hnf), rfl⟩
  · rw [read_lock_invalid who m (by simpa using hc)] at hs
    rw [← (some_pair_inj hs).1]; exact SlotStep.same h _

theorem do_write_lock_shape {s s' : State} {out : Output} {id : Int} {who : endpoint_t}
    {m : Bool} (h : Inv s) (hs : do_write_lock s id who m = some (s', out)) : SlotStep s s' id.toNat := by
  by_cases hc : rwsem_check_id s.rwsem_list id = true
  · have hnf := (check_id_eq_true.mp hc).2.2
    have ok := h.slots id.toNat
    by_cases hcl : (s.rwsem_list id.toNat).state = RWSEM_CLOSED
    · rw [write_lock_closed who m hc hcl] at hs
      rw [← (some_pair_inj hs).1]; exact SlotStep.same h _
    · by_cases he : (s.rwsem_list id.toNat).readers_in = 0 ∧
          (s.rwsem_list id.toNat).writers_in = 0
      · rw [write_lock_grant who m hc hcl he.1 he.2] at hs
        rw [← (some_pair_inj hs).1]
        exact ⟨_, rfl, (slot_ok_grant_writer ok hnf hcl he.1 he.2), (fun _ => hnf), rfl⟩
      · cases m
        · rw [write_lock_nomem who hc hcl he] at hs
          rw [← (some_pair_inj hs).1]; exact SlotStep.same h _
        · rw [write_lock_queue who hc hcl he] at hs
          rw [← (some_pair_inj hs).1]
          exact ⟨_, rfl, (slot_ok_push_writer who ok hnf he), (fun _ => hnf), rfl⟩
  · rw [write_lock_invalid who m (by simpa using hc)] at hs
    rw [← (some_pair_inj hs).1]; exact SlotStep.same h _

theorem do_rwsemdel_shape {s s' : State} {out : Output} {id : Int}
    (h : Inv s) (hs : do_rwsemdel s id = some (s', out)) : SlotStep s s' id.toNat := by
  by_cases hc : rwsem_check_id s.rwsem_list id = true
  · have hnf := (check_id_eq_true.mp hc).2.2
    have ok := h.slots id.toNat
    by_cases hcl : (s.rwsem_list id.toNat).state = RWSEM_CLOSED
    · rw [del_closed hc hcl] at hs
      rw [← (some_pair_inj hs).1]; exact SlotStep.same h _
    · by_cases he : (s.rwsem_list id.toNat).readers_in = 0 ∧
          (s.rwsem_list id.toNat).writers_in = 0
      · rw [del_empty hc hcl he.1 he.2] at hs
        rw [← (some_pair_inj hs).1]
        exact ⟨_, rfl, (slot_ok_free rfl he.1 he.2 rfl rfl), (fun hf => absurd rfl hf), rfl⟩
      · rw [del_held hc hcl he] at hs
        rw [← (some_pair_inj hs).1]
        exact ⟨_, rfl, (slot_ok_close ok hnf he), (fun _ => hnf), rfl⟩
  · rw [del_invalid (by simpa using hc)] at hs
    rw [← (some_pair_inj hs).1]; exact SlotStep.same h _

theorem do_read_unlock_shape {s s' : State} {out : Output} {id : Int}
    (h : Inv s) (hs : do_read_unlock s id = some (s', out)) : SlotStep s s' id.toNat := by
  by_cases hc : rwsem_check_id s.rwsem_list id = true
  · have hnf := (check_id_eq_true.mp hc).2.2
    have ok := h.slots id.toNat
    by_cases hr : (s.rwsem_list id.toNat).readers_in = 0
    · rw [read_unlock_eperm hc hr] at hs
      rw [← (some_pair_inj hs).1]; exact SlotStep.same h _
    · by_cases hr' : int_dec (s.rwsem_list id.toNat).readers_in = 0
      · by_cases hcl : (s.rwsem_list id.toNat).state = RWSEM_CLOSED
        · have hw0 : (s.rwsem_list id.toNat).writers_in = 0 := slot_writers_zero ok hr
          rw [read_unlock_drain hc hr hr' hcl hw0] at hs
          rw [← (some_pair_inj hs).1]
          exact ⟨_, rfl, (slot_ok_free rfl hr' hw0 rfl rfl), (fun hf => absurd rfl hf), rfl⟩
        · cases hq : (s.rwsem_list id.toNat).writers_waiting with
          | nil =>
            rw [read_unlock_idle hc hr hr' hcl hq] at hs
            rw [← (some_pair_inj hs).1]
            exact ⟨_, rfl, (slot_ok_last_reader_idle ok hnf hcl hr hr' hq), (fun _ => hnf), rfl⟩
          | cons who q =>
            rw [read_unlock_wake hc hr hr' hcl hq] at hs
            rw [← (some_pair_inj hs).1]
            exact ⟨_, rfl, (slot_ok_last_reader_wakes ok hnf hcl hr hr'), (fun _ => hnf), rfl⟩
      · rw [read_unlock_not_last hc hr hr'] at hs
        rw [← (some_pair_inj hs).1]
        exact ⟨_, rfl, (slot_ok_reader_leaves ok hnf hr hr'), (fun _ => hnf), rfl⟩
  · rw [read_unlock_invalid (by simpa using hc)] at hs
    rw [← (some_pair_inj hs).1]; exact SlotStep.same h _

theorem do_write_unlock_shape {s s' : State} {out : Output} {id : Int}
    (h : Inv s) (hs : do_write_unlock s id = some (s', out)) : SlotStep s s' id.toNat := by
  by_cases hc : rwsem_check_id s.rwsem_list id = true
  · have hnf := (check_id_eq_true.mp hc).2.2
    have ok := h.slots id.toNat
    by_cases hw : (s.rwsem_list id.toNat).writers_in = 0
    · rw [write_unlock_eperm hc hw] at hs
      rw [← (some_pair_inj hs).1]; exact SlotStep.same h _
    · have hw1 := slot_writers_one ok hw
      have hw' : (s.rwsem_list id.toNat).writers_in - 1 = 0 := by omega
      have hr : (s.rwsem_list id.toNat).readers_in = 0 := ok.excl hw1
      by_cases hcl : (s.rwsem_list id.toNat).state = RWSEM_CLOSED
      · rw [write_unlock_drain hc hw hw' hcl hr] at hs
        rw [← (some_pair_inj hs).1]
        exact ⟨_, rfl, (slot_ok_free rfl hr hw' rfl rfl), (fun hf => absurd rfl hf), rfl⟩
      · by_cases hrq : (s.rwsem_list id.toNat).readers_waiting = []
        · cases hq : (s.rwsem_list id.toNat).writers_waiting with
          | nil =>
            rw [write_unlock_idle hc hw hw' hcl hrq hq] at hs
            rw [← (some_pair_inj hs).1]
            exact ⟨_, rfl, (slot_ok_writer_leaves_idle ok hnf hcl hw hrq hq), (fun _ => hnf), rfl⟩
          | cons who q =>
            rw [write_unlock_writer hc hw hw' hcl hrq hq] at hs
            rw [← (some_pair_inj hs).1]
            exact ⟨_, rfl, (slot_ok_writer_leaves_writer ok hnf hcl hw), (fun _ => hnf), rfl⟩
        · rw [write_unlock_readers hc hw hw' hcl hrq] at hs
          rw [← (some_pair_inj hs).1]
          exact ⟨_, rfl, (slot_ok_writer_leaves_readers ok hnf hcl hw hrq), (fun _ => hnf), rfl⟩
  · rw [write_unlock_invalid (by simpa using hc)] at hs
    rw [← (some_pair_inj hs).1]; exact SlotStep.same h _

theorem rwsem_find_some {l : Nat → rwsem} {key : key_t} {i : Nat}
    (h : rwsem_find l key = some i) :
    i < MAX_RWSEM ∧ (l i).state ≠ RWSEM_FREE ∧ (l i).key = key := by
  unfold rwsem_find at h
  have h1 := List.find?_some h
  have h2 := List.mem_of_find?_eq_some h
  simp only [Bool.and_eq_true, bne_iff_ne, ne_eq, beq_iff_eq] at h1
  exact ⟨List.mem_range.mp h2, h1.1, h1.2⟩

theorem rwsem_find_none {l : Nat → rwsem} {key : key_t} :
    rwsem_find l key = none ↔
      ∀ i, i < MAX_RWSEM → (l i).state ≠ RWSEM_FREE → (l i).key ≠ key := by
  unfold rwsem_find
  rw [List.find?_eq_none]
  constructor
  · intro h i hi hnf hk
    have := h i (List.mem_range.mpr hi)
    simp only [Bool.and_eq_true, bne_iff_ne, ne_eq, beq_iff_eq, not_and] at this
    exact this hnf hk
  · intro h i hi
    simp only [Bool.and_eq_true, bne_iff_ne, ne_eq, beq_iff_eq, not_and]
    exact fun hnf hk => h i (List.mem_range.mp hi) hnf hk

theorem get_found {s : State} {key : key_t} {i : Nat}
    (h : rwsem_find s.rwsem_list key = some i) :
    do_rwsemget s key =
      some (s, { ret := OK, retid := some (s.rwsem_list i).id, sent := [] }) := by
  simp [do_rwsemget, h]

theorem get_full {s : State} {key : key_t}
    (h : rwsem_find s.rwsem_list key = none) (hfull : s.rwsem_count = MAX_RWSEM) :
    do_rwsemget s key = some (s, { ret := EAGAIN, retid := none, sent := [] }) := by
  simp [do_rwsemget, h, hfull]

theorem get_create {s : State} {key : key_t} {next : Nat}
    (h : rwsem_find s.rwsem_list key = none) (hfull : s.rwsem_count ≠ MAX_RWSEM)
    (hscan : find_free s.rwsem_list MAX_RWSEM s.rwsem_next = some next) :
    do_rwsemget s key =
      some ({ rwsem_list := Function.update s.rwsem_list next
                { state := RWSEM_ACTIVE, key := key, id := (next : Int), readers_in := 0,
                  writers_in := 0, readers_waiting := [], writers_waiting := [] },
              rwsem_count := s.rwsem_count + 1,
              rwsem_next := (next + 1) % MAX_RWSEM },
            { ret := OK, retid := some (next : Int), sent := [] }) := by
  simp [do_rwsemget, h, hfull, hscan, rwsem_queue_init]

theorem get_diverges {s : State} {key : key_t}
    (h : rwsem_find s.rwsem_list key = none) (hfull : s.rwsem_count ≠ MAX_RWSEM)
    (hscan : find_free s.rwsem_list MAX_RWSEM s.rwsem_next = none) :
    do_rwsemget s key = none := by
  simp [do_rwsemget, h, hfull, hscan]

theorem find_free_lt {l : Nat → rwsem} {c n : Nat} (hc : c < MAX_RWSEM)
    (h : find_free l MAX_RWSEM c = some n) : n < MAX_RWSEM ∧ (l n).state = RWSEM_FREE := by
  obtain ⟨k, _, hn, hf, _⟩ := (find_free_cyclic l c n hc).mp h
  refine ⟨?_, hf⟩
  rw [hn]
  exact Nat.mod_lt _ (by unfold MAX_RWSEM; omega)

theorem scan_succeeds {s : State} (h : Inv s) (hfull : s.rwsem_count ≠ MAX_RWSEM) :
    ∃ n, find_free s.rwsem_list MAX_RWSEM s.rwsem_next = some n := by
  apply find_free_some_of_free _ _ h.next_lt
  apply exists_free_of_count_lt
  have := h.nonfree_le
  have := h.count_le
  omega

theorem create_inv {s : State} {key : key_t} {next : Nat} (h : Inv s)
    (hfind : rwsem_find s.rwsem_list key = none) (hfull : s.rwsem_count ≠ MAX_RWSEM)
    (hscan : find_free s.rwsem_list MAX_RWSEM s.rwsem_next = some next) :
    Inv { rwsem_list := Function.update s.rwsem_list next
            { state := RWSEM_ACTIVE, key := key, id := (next : Int), readers_in := 0,
              writers_in := 0, readers_waiting := [], writers_waiting := [] },
          rwsem_count := s.rwsem_count + 1,
          rwsem_next := (next + 1) % MAX_RWSEM } := by
  obtain ⟨hlt, _⟩ := find_free_lt h.next_lt hscan
  have hnone := rwsem_find_none.mp hfind
  refine ⟨?_, ?_, ?_, ?_, ?_⟩
  · intro j
    by_cases hj : j = next
    · subst hj
      simp only [Function.update_same]
      refine ⟨Or.inl rfl, fun _ => rfl, ?_, fun _ => ⟨rfl, hlt⟩, ?_,
        fun _ _ _ => ⟨rfl, rfl⟩, fun _ _ _ => rfl⟩
      · intro hf; cases hf
      · intro hf; cases hf
    · simp only [Function.update_noteq hj]
      exact h.slots j
  · exact Nat.mod_lt _ (by unfold MAX_RWSEM; omega)
  · have := h.count_le
    show s.rwsem_count + 1 ≤ MAX_RWSEM
    omega
  · exact le_trans (nonfree_count_update_succ _ _ _) (Nat.succ_le_succ h.nonfree_le)
  · intro a b ha hb hk
    simp only at ha hb hk
    by_cases ea : a = next
    · by_cases eb : b = next
      · rw [ea, eb]
      · exfalso
        rw [Function.update_noteq eb] at hb hk
        rw [ea, Function.update_same] at hk
        exact hnone b ((h.slots b).used_id hb).2 hb hk.symm
    · by_cases eb : b = next
      · exfalso
        rw [Function.update_noteq ea] at ha hk
        rw [eb, Function.update_same] at hk
        exact hnone a ((h.slots a).used_id ha).2 ha hk
      · rw [Function.update_noteq ea] at ha hk
        rw [Function.update_noteq eb] at hb hk
        exact h.key_unique a b ha hb hk

theorem do_rwsemget_inv {s s' : State} {out : Output} {key : key_t}
    (h : Inv s) (hs : do_rwsemget s key = some (s', out)) : Inv s' := by
  cases hfind : rwsem_find s.rwsem_list key with
  | some i =>
    rw [get_found hfind] at hs
    rw [← (some_pair_inj hs).1]; exact h
  | none =>
    by_cases hfull : s.rwsem_count = MAX_RWSEM
    · have e := get_full hfind hfull
      rw [e] at hs
      have e2 := (some_pair_inj hs).1
      rw [← e2]; exact h
    · obtain ⟨n, hn⟩ := scan_succeeds h hfull
      rw [get_create hfind hfull hn] at hs
      rw [← (some_pair_inj hs).1]
      exact create_inv h hfind hfull hn

theorem step_inv {s s' : State} {out : Output} {req : Request}
    (h : Inv s) (hs : step s req = some (s', out)) : Inv s' := by
  cases req with
  | get key =>
    have hs' : do_rwsemget s key = some (s', out) := by simpa only [step] using hs
    exact do_rwsemget_inv h hs'
  | del id => exact (do_rwsemdel_shape h hs).inv h
  | read_lock id who m => exact (do_read_lock_shape h hs).inv h
  | read_unlock id => exact (do_read_unlock_shape h hs).inv h
  | write_lock id who m => exact (do_write_lock_shape h hs).inv h
  | write_unlock id => exact (do_write_unlock_shape h hs).inv h

theorem do_rwsemget_key {s s' : State} {out : Output} {key : key_t}
    (h : Inv s) (hs : do_rwsemget s key = some (s', out)) (j : Nat)
    (hnf : (s.rwsem_list j).state ≠ RWSEM_FREE) :
    (s'.rwsem_list j).key = (s.rwsem_list j).key := by
  cases hfind : rwsem_find s.rwsem_list key with
  | some i =>
    rw [get_found hfind] at hs
    rw [← (some_pair_inj hs).1]
  | none =>
    by_cases hfull : s.rwsem_count = MAX_RWSEM
    · rw [get_full hfind hfull] at hs
      rw [← (some_pair_inj hs).1]
    · obtain ⟨n, hn⟩ := scan_succeeds h hfull
      rw [get_create hfind hfull hn] at hs
      rw [← (some_pair_inj hs).1]
      have hjn : j ≠ n := by
        intro e
        rw [e] at hnf
        exact hnf (find_free_lt h.next_lt hn).2
      simp only [Function.update_noteq hjn]

theorem step_key {s s' : State} {out : Output} {req : Request}
    (h : Inv s) (hs : step s req = some (s', out)) (j : Nat)
    (hnf : (s.rwsem_list j).state ≠ RWSEM_FREE) :
    (s'.rwsem_list j).key = (s.rwsem_list j).key := by
  cases req with
  | get key =>
    have hs' : do_rwsemget s key = some (s', out) := by simpa only [step] using hs
    exact do_rwsemget_key h hs' j hnf
  | del id => exact (do_rwsemdel_shape h hs).key j
  | read_lock id who m => exact (do_read_lock_shape h hs).key j
  | read_unlock id => exact (do_read_unlock_shape h hs).key j
  | write_lock id who m => exact (do_write_lock_shape h hs).key j
  | write_unlock id => exact (do_write_unlock_shape h hs).key j

theorem reachable_inv {s : State} (h : Reachable s) : Inv s := by
  induction h with
  | init => exact init_inv
  | step req _ hs ih => exact step_inv ih hs

theorem reachable_run {s s' : State} {reqs : List Request} (h : Reachable s)
    (hr : run s reqs = some s') : Reachable s' := by
  induction reqs generalizing s with
  | nil =>
    simp only [run, Option.some.injEq] at hr
    rw [← hr]; exact h
  | cons req rest ih =>
    unfold run at hr
    cases hstep : step s req with
    | none => rw [hstep] at hr; cases hr
    | some p =>
      obtain ⟨s1, out⟩ := p
      rw [hstep] at hr
      exact ih (Reachable.step req h hstep) hr

theorem reachable_after (reqs : List Request) : Reachable (after reqs) := by
  unfold after
  cases hr : run init reqs with
  | none => exact Reachable.init
  | some s => exact reachable_run Reachable.init hr

theorem active_check {s : State} {id : Int} (h0 : 0 ≤ id) (h1 : id < (MAX_RWSEM : Int))
    (hact : (s.rwsem_list id.toNat).state = RWSEM_ACTIVE) :
    rwsem_check_id s.rwsem_list id = true ∧ (s.rwsem_list id.toNat).state ≠ RWSEM_CLOSED :=
  ⟨check_id_eq_true.mpr ⟨h0, h1, by rw [hact]; decide⟩, by rw [hact]; decide⟩

theorem closed_check {s : State} {id : Int} (h0 : 0 ≤ id) (h1 : id < (MAX_RWSEM : Int))
    (hcl : (s.rwsem_list id.toNat).state = RWSEM_CLOSED) :
    rwsem_check_id s.rwsem_list id = true :=
  check_id_eq_true.mpr ⟨h0, h1, by rw [hcl]; decide⟩

theorem lookup_of_registered {s : State} (h : Inv s) {i : Nat} {key : key_t}
    (hnf : (s.rwsem_list i).state ≠ RWSEM_FREE) (hk : (s.rwsem_list i).key = key) :
    do_rwsemget s key = some (s, { ret := OK, retid := some (i : Int), sent := [] }) := by
  have hi := ((h.slots i).used_id hnf)
  cases hfind : rwsem_find s.rwsem_list key with
  | none => exact absurd hk (rwsem_find_none.mp hfind i hi.2 hnf)
  | some j =>
    obtain ⟨_, hjnf, hjk⟩ := rwsem_find_some hfind
    have e : j = i := h.key_unique j i hjnf hnf (hjk.trans hk.symm)
    rw [get_found hfind, e, hi.1]

theorem get_registers {s s1 : State} {out : Output} {key : key_t} {i : Int} (h : Inv s)
    (hs : do_rwsemget s key = some (s1, out)) (hret : out.ret = OK)
    (hid : out.retid = some i) :
    i = (i.toNat : Int) ∧ (s1.rwsem_list i.toNat).state ≠ RWSEM_FREE ∧
      (s1.rwsem_list i.toNat).key = key := by
  cases hfind : rwsem_find s.rwsem_list key with
  | some j =>
    obtain ⟨_, hjnf, hjk⟩ := rwsem_find_some hfind
    rw [get_found hfind] at hs
    obtain ⟨es, eo⟩ := some_pair_inj hs
    rw [← eo] at hid
    simp only [Option.some.injEq] at hid
    rw [((h.slots j).used_id hjnf).1] at hid
    rw [← es, ← hid]
    simp only [Int.toNat_ofNat]
    exact ⟨trivial, hjnf, hjk⟩
  | none =>
    by_cases hfull : s.rwsem_count = MAX_RWSEM
    · rw [get_full hfind hfull] at hs
      rw [← (some_pair_inj hs).2] at hret
      cases hret
    · obtain ⟨n, hn⟩ := scan_succeeds h hfull
      rw [get_create hfind hfull hn] at hs
      obtain ⟨es, eo⟩ := some_pair_inj hs
      rw [← eo] at hid
      simp only [Option.some.injEq] at hid
      rw [← es, ← hid]
      simp [Int.toNat_ofNat, Function.update_same]

theorem survives_spec {i : Nat} {s1 s2 : State} (hs : Survives i s1 s2) (h1 : Inv s1)
    (hnf : (s1.rwsem_list i).state ≠ RWSEM_FREE) :
    Inv s2 ∧ (s2.rwsem_list i).state ≠ RWSEM_FREE ∧
      (s2.rwsem_list i).key = (s1.rwsem_list i).key := by
  induction hs with
  | refl => exact ⟨h1, hnf, rfl⟩
  | step req _ hstep halive ih =>
    obtain ⟨hinv, hnf', hkey⟩ := ih
    exact ⟨step_inv hinv hstep, halive, (step_key hinv hstep i hnf').trans hkey⟩

theorem run_append (s : State) (a b : List Request) :
    run s (a ++ b) = (run s a).bind (fun t => run t b) := by
  induction a generalizing s with
  | nil => rfl
  | cons req rest ih =>
    simp only [List.cons_append, run]
    cases step s req with
    | none => rfl
    | some p => exact ih p.1

theorem find_free_here (l : Nat → rwsem) (fuel c : Nat)
    (h : (l c).state = RWSEM_FREE) (hf : 0 < fuel) : find_free l fuel c = some c := by
  cases fuel with
  | zero => omega
  | succ fuel => simp [find_free, h]

theorem run_cons (s : State) (req : Request) (rest : List Request) :
    run s (req :: rest) =
      match step s req with
      | none => none
      | some (s', _) => run s' rest := rfl

theorem filled_zero : filled 0 = init := by
  simp [filled, init, MAX_RWSEM]

theorem get_filled (n : Nat) (hn : n < MAX_RWSEM) :
    do_rwsemget (filled n) (n : Int) =
      some (filled (n + 1), { ret := OK, retid := some (n : Int), sent := [] }) := by
  have hfind : rwsem_find (filled n).rwsem_list (n : Int) = none := by
    rw [rwsem_find_none]
    intro i _ hnf
    by_cases hi : i < n
    · simp only [filled, hi, if_true]
      show (i : Int) ≠ (n : Int)
      omega
    · simp [filled, hi, zero_slot] at hnf
  have hfull : (filled n).rwsem_count ≠ MAX_RWSEM := by
    simp only [filled]; omega
  have hscan : find_free (filled n).rwsem_list MAX_RWSEM (filled n).rwsem_next = some n := by
    have e : (filled n).rwsem_next = n := Nat.mod_eq_of_lt hn
    rw [e]
    exact find_free_here _ _ _ (by simp [filled, zero_slot]) (by unfold MAX_RWSEM; omega)
  rw [get_create hfind hfull hscan]
  refine congrArg (fun t : State =>
    some (t, ({ ret := OK, retid := some (n : Int), sent := [] } : Output))) ?_
  simp only [filled, State.mk.injEq, and_true]
  funext i
  by_cases hi : i = n
  · subst hi
    simp
  · rw [Function.update_noteq hi]
    by_cases h1 : i < n
    · have h2 : i < n + 1 := by omega
      simp [h1, h2]
    · have h2 : ¬ i < n + 1 := by omega
      simp [h1, h2]

theorem run_gets (n : Nat) (hn : n ≤ MAX_RWSEM) : run init (gets n) = some (filled n) := by
  induction n with
  | zero =>
    rw [filled_zero]
    rfl
  | succ n ih =>
    have e : gets (n + 1) = gets n ++ [Request.get (n : Int)] := by
      simp [gets, List.range_succ]
    rw [e, run_append, ih (by omega), Option.some_bind, run_cons]
    simp only [step]
    rw [get_filled n (by omega)]
    rfl

theorem del_filled :
    do_rwsemdel (filled MAX_RWSEM) 0 = some (s_released, { ret := OK, retid := none, sent := [] }) := by
  have hc : rwsem_check_id (filled MAX_RWSEM).rwsem_list 0 = true := by
    rw [check_id_eq_true]
    simp [filled, MAX_RWSEM]
  rw [del_empty hc (by simp [filled, MAX_RWSEM]) (by simp [filled, MAX_RWSEM])
    (by simp [filled, MAX_RWSEM])]
  simp [s_released, filled, MAX_RWSEM]

theorem released_state (i : Nat) (hi : i < MAX_RWSEM) :
    ((s_released.rwsem_list i).state ≠ RWSEM_FREE ↔ 1 ≤ i) ∧
      (1 ≤ i → (s_released.rwsem_list i).key = (i : Int)) := by
  by_cases h0 : i = 0
  · subst h0
    simp [s_released, State.store]
  · have h1 : 1 ≤ i := by omega
    simp [s_released, State.store, Function.update_noteq h0, filled, hi, h1]

set_option maxRecDepth 100000 in
theorem released_count : nonfree_count s_released.rwsem_list = 499 := by
  unfold nonfree_count
  have e : (List.range MAX_RWSEM).countP (fun i => (s_released.rwsem_list i).state != RWSEM_FREE)
      = (List.range MAX_RWSEM).countP (fun i => decide (1 ≤ i)) := by
    apply List.countP_congr
    intro i hi
    have := (released_state i (List.mem_range.mp hi)).1
    simp only [bne_iff_ne, ne_eq, decide_eq_true_eq]
    exact this
  rw [e]
  decide

theorem read_unlock_ok {s : State} {id : Int} (h : Inv s)
    (hc : rwsem_check_id s.rwsem_list id = true)
    (hr : (s.rwsem_list id.toNat).readers_in ≠ 0) :
    ∃ s' ms, do_read_unlock s id = some (s', { ret := OK, retid := none, sent := ms }) := by
  have ok := h.slots id.toNat
  by_cases hr' : int_dec (s.rwsem_list id.toNat).readers_in = 0
  · by_cases hcl : (s.rwsem_list id.toNat).state = RWSEM_CLOSED
    · exact ⟨_, _, read_unlock_drain hc hr hr' hcl (slot_writers_zero ok hr)⟩
    · cases hq : (s.rwsem_list id.toNat).writers_waiting with
      | nil => exact ⟨_, _, read_unlock_idle hc hr hr' hcl hq⟩
      | cons who q => exact ⟨_, _, read_unlock_wake hc hr hr' hcl hq⟩
  · exact ⟨_, _, read_unlock_not_last hc hr hr'⟩

theorem write_unlock_ok {s : State} {id : Int} (h : Inv s)
    (hc : rwsem_check_id s.rwsem_list id = true)
    (hw : (s.rwsem_list id.toNat).writers_in ≠ 0) :
    ∃ s' ms, do_write_unlock s id = some (s', { ret := OK, retid := none, sent := ms }) := by
  have ok := h.slots id.toNat
  have hw1 := slot_writers_one ok hw
  have hw' : (s.rwsem_list id.toNat).writers_in - 1 = 0 := by omega
  by_cases hcl : (s.rwsem_list id.toNat).state = RWSEM_CLOSED
  · exact ⟨_, _, write_unlock_drain hc hw hw' hcl (ok.excl hw1)⟩
  · by_cases hrq : (s.rwsem_list id.toNat).readers_waiting = []
    · cases hq : (s.rwsem_list id.toNat).writers_waiting with
      | nil => exact ⟨_, _, write_unlock_idle hc hw hw' hcl hrq hq⟩
      | cons who q => exact ⟨_, _, write_unlock_writer hc hw hw' hcl hrq hq⟩
    · exact ⟨_, _, write_unlock_readers hc hw hw' hcl hrq⟩

theorem do_read_lock_total (s : State) (id : Int) (who : endpoint_t) (m : Bool) :
    ∃ s' out, do_read_lock s id who m = some (s', out) := by
  by_cases hc : rwsem_check_id s.rwsem_list id = true
  · by_cases hcl : (s.rwsem_list id.toNat).state = RWSEM_CLOSED
    · exact ⟨_, _, read_lock_closed who m hc hcl⟩
    · by_cases hq : (s.rwsem_list id.toNat).writers_in = 0 ∧
          (s.rwsem_list id.toNat).writers_waiting = []
      · exact ⟨_, _, read_lock_grant who m hc hcl hq.1 hq.2⟩
      · cases m
        · exact ⟨_, _, read_lock_nomem who hc hcl hq⟩
        · exact ⟨_, _, read_lock_queue who hc hcl hq⟩
  · exact ⟨_, _, read_lock_invalid who m (by simpa using hc)⟩

theorem do_write_lock_total (s : State) (id : Int) (who : endpoint_t) (m : Bool) :
    ∃ s' out, do_write_lock s id who m = some (s', out) := by
  by_cases hc : rwsem_check_id s.rwsem_list id = true
  · by_cases hcl : (s.rwsem_list id.toNat).state = RWSEM_CLOSED
    · exact ⟨_, _, write_lock_closed who m hc hcl⟩
    · by_cases he : (s.rwsem_list id.toNat).readers_in = 0 ∧
          (s.rwsem_list id.toNat).writers_in = 0
      · exact ⟨_, _, write_lock_grant who m hc hcl he.1 he.2⟩
      · cases m
        · exact ⟨_, _, write_lock_nomem who hc hcl he⟩
        · exact ⟨_, _, write_lock_queue who hc hcl he⟩
  · exact ⟨_, _, write_lock_invalid who m (by simpa using hc)⟩

theorem do_rwsemdel_total (s : State) (id : Int) :
    ∃ s' out, do_rwsemdel s id = some (s', out) := by
  by_cases hc : rwsem_check_id s.rwsem_list id = true
  · by_cases hcl : (s.rwsem_list id.toNat).state = RWSEM_CLOSED
    · exact ⟨_, _, del_closed hc hcl⟩
    · by_cases he : (s.rwsem_list id.toNat).readers_in = 0 ∧
          (s.rwsem_list id.toNat).writers_in = 0
      · exact ⟨_, _, del_empty hc hcl he.1 he.2⟩
      · exact ⟨_, _, del_held hc hcl he⟩
  · exact ⟨_, _, del_invalid (by simpa using hc)⟩

theorem do_read_unlock_total {s : State} (h : Inv s) (id : Int) :
    ∃ s' out, do_read_unlock s id = some (s', out) := by
  by_cases hc : rwsem_check_id s.rwsem_list id = true
  · by_cases hr : (s.rwsem_list id.toNat).readers_in = 0
    · exact ⟨_, _, read_unlock_eperm hc hr⟩
    · obtain ⟨s', ms, e⟩ := read_unlock_ok h hc hr
      exact ⟨_, _, e⟩
  · exact ⟨_, _, read_unlock_invalid (by simpa using hc)⟩

theorem do_write_unlock_total {s : State} (h : Inv s) (id : Int) :
    ∃ s' out, do_write_unlock s id = some (s', out) := by
  by_cases hc : rwsem_check_id s.rwsem_list id = true
  · by_cases hw : (s.rwsem_list id.toNat).writers_in = 0
    · exact ⟨_, _, write_unlock_eperm hc hw⟩
    · obtain ⟨s', ms, e⟩ := write_unlock_ok h hc hw
      exact ⟨_, _, e⟩
  · exact ⟨_, _, write_unlock_invalid (by simpa using hc)⟩

theorem do_rwsemget_total {s : State} (h : Inv s) (key : key_t) :
    ∃ s' out, do_rwsemget s key = some (s', out) := by
  cases hfind : rwsem_find s.rwsem_list key with
  | some i => exact ⟨_, _, get_found hfind⟩
  | none =>
    by_cases hfull : s.rwsem_count = MAX_RWSEM
    · exact ⟨_, _, get_full hfind hfull⟩
    · obtain ⟨n, hn⟩ := scan_succeeds h hfull
      exact ⟨_, _, get_create hfind hfull hn⟩

theorem step_total {s : State} (h : Inv s) (req : Request) :
    ∃ s' out, step s req = some (s', out) := by
  cases req with
  | get key =>
    obtain ⟨s', out, e⟩ := do_rwsemget_total h key
    exact ⟨s', out, by simpa only [step] using e⟩
  | del id => exact do_rwsemdel_total s id
  | read_lock id who m => exact do_read_lock_total s id who m
  | read_unlock id => exact do_read_unlock_total h id
  | write_lock id who m => exact do_write_lock_total s id who m
  | write_unlock id => exact do_write_unlock_total h id

theorem run_total {s : State} (h : Inv s) (reqs : List Request) :
    ∃ s', run s reqs = some s' ∧ Inv s' := by
  induction reqs generalizing s with
  | nil => exact ⟨s, rfl, h⟩
  | cons req rest ih =>
    obtain ⟨s1, out, e⟩ := step_total h req
    obtain ⟨s2, e2, h2⟩ := ih (step_inv h e)
    refine ⟨s2, ?_, h2⟩
    rw [run_cons, e]
    exact e2

theorem unlock_outcome {s : State} {f : Option (State × Output)} {invalid zero : Prop}
    (h1 : invalid → f = some (s, { ret := ENOENT, retid := none, sent := [] }))
    (h2 : ¬ invalid → zero → f = some (s, { ret := EPERM, retid := none, sent := [] }))
    (h3 : ¬ invalid → ¬ zero →
      ∃ s' ms, f = some (s', { ret := OK, retid := none, sent := ms })) :
    ∃ s' out, f = some (s', out) ∧
      (out.ret = ENOENT ↔ invalid) ∧
      (out.ret = EPERM ↔ (¬ invalid ∧ zero)) ∧
      (out.ret = OK ↔ (¬ invalid ∧ ¬ zero)) ∧
      (out.ret ≠ OK → s' = s ∧ out.sent = []) := by
  by_cases hi : invalid
  · refine ⟨_, _, h1 hi, ⟨fun _ => hi, fun _ => rfl⟩, ⟨fun e => ?_, fun e => absurd hi e.1⟩,
      ⟨fun e => ?_, fun e => absurd hi e.1⟩, fun _ => ⟨rfl, rfl⟩⟩
    · cases e
    · cases e
  · by_cases hz : zero
    · refine ⟨_, _, h2 hi hz, ⟨fun e => ?_, fun e => absurd e hi⟩,
        ⟨fun _ => ⟨hi, hz⟩, fun _ => rfl⟩, ⟨fun e => ?_, fun e => absurd hz e.2⟩,
        fun _ => ⟨rfl, rfl⟩⟩
      · cases e
      · cases e
    · obtain ⟨s', ms, e⟩ := h3 hi hz
      refine ⟨_, _, e, ⟨fun e => ?_, fun e => absurd e hi⟩,
        ⟨fun e => ?_, fun e => absurd e.2 hz⟩, ⟨fun _ => ⟨hi, hz⟩, fun _ => rfl⟩,
        fun e => absurd rfl e⟩
      · cases e
      · cases e

theorem check_of_not_invalid {l : Nat → rwsem} {id : Int}
    (h : ¬ (id < 0 ∨ (MAX_RWSEM : Int) ≤ id ∨ (l id.toNat).state = RWSEM_FREE)) :
    rwsem_check_id l id = true := by
  rw [← Bool.not_eq_false]
  intro e
  exact h (check_id_eq_false.mp e)

theorem first_get (k : key_t) :
    do_rwsemget init k = some (s_first k, { ret := OK, retid := some 0, sent := [] }) := by
  have hfind : rwsem_find init.rwsem_list k = none := by
    rw [rwsem_find_none]
    intro i _ hnf
    exact absurd rfl hnf
  have hfull : init.rwsem_count ≠ MAX_RWSEM := by
    show (0 : Nat) ≠ MAX_RWSEM
    unfold MAX_RWSEM; omega
  have hscan : find_free init.rwsem_list MAX_RWSEM init.rwsem_next = some 0 :=
    find_free_here _ _ _ rfl (by unfold MAX_RWSEM; omega)
  rw [get_create hfind hfull hscan]
  rfl

theorem first_inv (k : key_t) : Inv (s_first k) :=
  do_rwsemget_inv init_inv (first_get k)

theorem second_get (k : key_t) :
    do_rwsemget (s_first k) k =
      some (s_first k, { ret := OK, retid := some 0, sent := [] }) := by
  have hnf : ((s_first k).rwsem_list 0).state ≠ RWSEM_FREE := by
    simp [s_first, fresh]
  have hk : ((s_first k).rwsem_list 0).key = k := by
    simp [s_first, fresh]
  exact lookup_of_registered (first_inv k) hnf hk

theorem then_delete (k : key_t) :
    do_rwsemdel (s_first k) 0 = some (s_gone k, { ret := OK, retid := none, sent := [] }) := by
  have hc : rwsem_check_id (s_first k).rwsem_list 0 = true := by
    rw [check_id_eq_true]
    refine ⟨le_refl _, ?_, ?_⟩
    · unfold MAX_RWSEM; decide
    · simp [s_first, fresh]
  rw [del_empty hc (by simp [s_first, fresh]) (by simp [s_first, fresh])
    (by simp [s_first, fresh])]
  simp [s_gone, s_first, fresh]

theorem gone_free (k : key_t) (i : Nat) : ((s_gone k).rwsem_list i).state = RWSEM_FREE := by
  by_cases hi : i = 0
  · subst hi
    simp [s_gone, State.store]
  · simp [s_gone, State.store, s_first, Function.update_noteq hi, init, zero_slot]

theorem third_get (k : key_t) :
    do_rwsemget (s_gone k) k =
      some (s_again k, { ret := OK, retid := some 1, sent := [] }) := by
  have hfind : rwsem_find (s_gone k).rwsem_list k = none := by
    rw [rwsem_find_none]
    intro i _ hnf
    exact absurd (gone_free k i) hnf
  have hfull : (s_gone k).rwsem_count ≠ MAX_RWSEM := by
    show (1 : Nat) ≠ MAX_RWSEM
    unfold MAX_RWSEM; omega
  have hscan : find_free (s_gone k).rwsem_list MAX_RWSEM (s_gone k).rwsem_next = some 1 :=
    find_free_here _ _ _ (gone_free k 1) (by unfold MAX_RWSEM; omega)
  rw [get_create hfind hfull hscan]
  rfl

theorem find_free_cyclic_fuel (l : Nat → rwsem) (fuel c n : Nat) (hc : c < MAX_RWSEM) :
    find_free l fuel c = some n ↔
      ∃ k, k < fuel ∧ n = (c + k) % MAX_RWSEM ∧ (l n).state = RWSEM_FREE ∧
        ∀ j, j < k → (l ((c + j) % MAX_RWSEM)).state ≠ RWSEM_FREE := by
  have key : ∀ k, Nat.iterate (fun x => (x + 1) % MAX_RWSEM) k c = (c + k) % MAX_RWSEM := by
    intro k
    rw [iterate_cursor]
    split
    · next h => subst h; simp [Nat.mod_eq_of_lt hc]
    · rfl
  rw [find_free_spec]
  simp only [key]
  constructor
  · rintro ⟨k, hk, hn, hf, hall⟩
    exact ⟨k, hk, hn.symm, hf, hall⟩
  · rintro ⟨k, hk, hn, hf, hall⟩
    exact ⟨k, hk, hn.symm, hf, hall⟩

theorem int_inc_of_ne {x : Int} (h : x ≠ INT_MAX) : int_inc x = x + 1 := by
  simp [int_inc, h]

theorem int_inc_max : int_inc 2147483647 = -2147483648 := by
  simp [int_inc, INT_MAX, INT_MIN]

theorem int_dec_of_ne {x : Int} (h : x ≠ INT_MIN) : int_dec x = x - 1 := by
  simp [int_dec, h]

theorem int_dec_of_pos {x : Int} (h : 1 ≤ x) : int_dec x = x - 1 := by
  have hne : x ≠ INT_MIN := by
    unfold INT_MIN
    omega
  simp [int_dec, hne]

theorem int_dec_eq_zero {x : Int} : int_dec x = 0 ↔ x = 1 := by
  unfold int_dec
  by_cases h : x = INT_MIN
  · rw [if_pos h]
    unfold INT_MIN at h
    unfold INT_MAX
    constructor
    · intro e; omega
    · intro e; omega
  · rw [if_neg h]
    constructor
    · intro e; omega
    · intro e; omega

theorem reachable_first (k : key_t) : Reachable (s_first k) :=
  Reachable.step (.get k) Reachable.init
    (show step init (.get k) = some (s_first k, { ret := OK, retid := some 0, sent := [] })
      from by simp only [step]; exact first_get k)

theorem readers_zero : s_readers 0 = s_first 7 := by
  have e : ({ fresh 7 0 with readers_in := ((0 : Nat) : Int) } : rwsem) =
      (s_first 7).rwsem_list 0 := by
    simp [s_first, fresh]
  unfold s_readers
  rw [e]
  exact store_self _ _

theorem readers_slot (n : Nat) :
    (s_readers n).rwsem_list 0 = { fresh 7 0 with readers_in := (n : Int) } := by
  simp [s_readers, State.store]

theorem readers_next (n : Nat) (c : endpoint_t) (m : Bool) :
    do_read_lock (s_readers n) 0 c m =
      some ((s_first 7).store 0 { fresh 7 0 with readers_in := int_inc (n : Int) },
        { ret := OK, retid := none, sent := [(OK, c)] }) := by
  have e0 : (0 : Int).toNat = 0 := rfl
  have hc : rwsem_check_id (s_readers n).rwsem_list 0 = true := by
    rw [check_id_eq_true, e0, readers_slot]
    refine ⟨le_refl _, ?_, ?_⟩
    · unfold MAX_RWSEM; decide
    · simp [fresh]
  rw [read_lock_grant c m hc (by rw [e0, readers_slot]; simp [fresh])
    (by rw [e0, readers_slot]; rfl) (by rw [e0, readers_slot]; rfl), e0, readers_slot]
  simp [s_readers, State.store, fresh]

theorem reachable_readers (n : Nat) (hn : n ≤ 2147483647) : Reachable (s_readers n) := by
  induction n with
  | zero =>
    rw [readers_zero]
    exact reachable_first 7
  | succ n ih =>
    have hne : ((n : Nat) : Int) ≠ INT_MAX := by
      unfold INT_MAX
      omega
    have e := readers_next n 0 true
    rw [int_inc_of_ne hne] at e
    exact Reachable.step (.read_lock 0 0 true) (ih (by omega)) e

/-! ## The claims -/


/-- Claim C1 (mutual exclusion): in every state reachable from the initial
table by any sequence of requests, every slot has `writers_in` equal to 0 or
1, and `writers_in = 1` implies `readers_in = 0`. -/
theorem mutual_exclusion (s : State) (h : Reachable s) (i : Nat) :
    ((s.rwsem_list i).writers_in = 0 ∨ (s.rwsem_list i).writers_in = 1) ∧
      ((s.rwsem_list i).writers_in = 1 → (s.rwsem_list i).readers_in = 0) :=
  ⟨((reachable_inv h).slots i).writers_bit, ((reachable_inv h).slots i).excl⟩

set_option maxRecDepth 100000 in
/-- Instance of C1: while writer 11 holds semaphore 0, no reader is inside. -/
theorem mutual_exclusion_witness :
    Reachable w_writer ∧ (w_writer.rwsem_list 0).writers_in = 1 ∧
      (w_writer.rwsem_list 0).readers_in = 0 :=
  ⟨reachable_after _, by decide, (mutual_exclusion w_writer (reachable_after _) 0).2 (by decide)⟩

/-- Claim C2 as amended (read_lock admission, writer preference): on an
ACTIVE slot, `read_lock(id)` from caller `c` always returns; it sends the single
message `OK` to `c` exactly when `writers_in = 0` and `writers_waiting` is
empty, and then nothing but `readers_in` changes, which increases by exactly 1
when it is below `INT_MAX`; otherwise, when the queue node is allocated, `c` is
appended at the tail of `readers_waiting`, nothing is sent and nothing else
changes.  This holds in every state, reachable or not.  What `readers_in`
becomes at `INT_MAX` is left open. -/
theorem read_lock_admission (s : State) (id : Int) (c : endpoint_t) (m : Bool)
    (h0 : 0 ≤ id) (h1 : id < (MAX_RWSEM : Int))
    (hact : (s.rwsem_list id.toNat).state = RWSEM_ACTIVE) :
    ∃ s' out, do_read_lock s id c m = some (s', out) ∧
      (out.sent = [(OK, c)] ↔
        ((s.rwsem_list id.toNat).writers_in = 0 ∧
          (s.rwsem_list id.toNat).writers_waiting = [])) ∧
      (((s.rwsem_list id.toNat).writers_in = 0 ∧
          (s.rwsem_list id.toNat).writers_waiting = []) →
        ∃ n, s' = s.store id.toNat { s.rwsem_list id.toNat with readers_in := n } ∧
          ((s.rwsem_list id.toNat).readers_in ≠ INT_MAX →
            n = (s.rwsem_list id.toNat).readers_in + 1)) ∧
      (¬ ((s.rwsem_list id.toNat).writers_in = 0 ∧
          (s.rwsem_list id.toNat).writers_waiting = []) → m = true →
        s' = s.store id.toNat { s.rwsem_list id.toNat with
              readers_waiting := (s.rwsem_list id.toNat).readers_waiting ++ [c] } ∧
        out.sent = []) := by
  obtain ⟨hc, hcl⟩ := active_check h0 h1 hact
  by_cases hq : (s.rwsem_list id.toNat).writers_in = 0 ∧
      (s.rwsem_list id.toNat).writers_waiting = []
  · exact ⟨_, _, read_lock_grant c m hc hcl hq.1 hq.2, ⟨fun _ => hq, fun _ => rfl⟩,
      fun _ => ⟨_, rfl, fun hne => int_inc_of_ne hne⟩, fun hn => absurd hq hn⟩
  · cases m
    · refine ⟨_, _, read_lock_nomem c hc hcl hq, ⟨fun e => ?_, fun hq' => absurd hq' hq⟩,
        fun hq' => absurd hq' hq, fun _ e => ?_⟩
      · simp at e
      · cases e
    · refine ⟨_, _, read_lock_queue c hc hcl hq, ⟨fun e => ?_, fun hq' => absurd hq' hq⟩,
        fun hq' => absurd hq' hq, fun _ _ => ⟨rfl, rfl⟩⟩
      simp at e

set_option maxRecDepth 100000 in
/-- Instance of C2 as amended: on the idle semaphore 0 reader 21 is admitted
and `readers_in` goes from 0 to 1; while reader 11 holds semaphore 0 and writer
12 is queued, a new reader 21 is queued and gets no message, although no writer
holds the lock. -/
theorem read_lock_admission_witness :
    ((w_active.rwsem_list (0 : Int).toNat).state = RWSEM_ACTIVE ∧
      ∃ s' out, do_read_lock w_active 0 21 true = some (s', out) ∧
        out.sent = [(OK, 21)] ∧ (s'.rwsem_list 0).readers_in = 1) ∧
    ((w_reader.rwsem_list (0 : Int).toNat).state = RWSEM_ACTIVE ∧
      (w_reader.rwsem_list (0 : Int).toNat).writers_in = 0 ∧
      ∃ s' out, do_read_lock w_reader 0 21 true = some (s', out) ∧ out.sent = [] ∧
        (s'.rwsem_list 0).readers_waiting = [21]) := by
  constructor
  · obtain ⟨s', out, hs, hiff, hadm, _⟩ :=
      read_lock_admission w_active 0 21 true (by decide) (by decide) (by decide)
    obtain ⟨n, e, hn⟩ := hadm (by decide)
    refine ⟨by decide, s', out, hs, hiff.mpr (by decide), ?_⟩
    rw [e, hn (by decide)]
    decide
  · obtain ⟨s', out, hs, _, _, hq⟩ :=
      read_lock_admission w_reader 0 21 true (by decide) (by decide) (by decide)
    have e := hq (by decide) rfl
    refine ⟨by decide, by decide, s', out, hs, e.2, ?_⟩
    rw [e.1]
    decide

/-- Counterexample to C2 as stated: it is not true that in every reachable
state an admitted `read_lock` increases `readers_in` by exactly 1.  After
`get(7)` and 2147483647 admitted `read_lock(0)` the count is `INT_MAX`, and the
next `read_lock(0)` stores `INT_MIN`. -/
theorem read_lock_admission_counterexample :
    ¬ ∀ (s : State) (id : Int) (c : endpoint_t) (m : Bool), Reachable s →
        0 ≤ id → id < (MAX_RWSEM : Int) →
        (s.rwsem_list id.toNat).state = RWSEM_ACTIVE →
        (s.rwsem_list id.toNat).writers_in = 0 →
        (s.rwsem_list id.toNat).writers_waiting = [] →
        ∃ s' out, do_read_lock s id c m = some (s', out) ∧
          (s'.rwsem_list id.toNat).readers_in = (s.rwsem_list id.toNat).readers_in + 1 := by
  intro hall
  have e0 : (0 : Int).toNat = 0 := rfl
  obtain ⟨s', out, hs, hr⟩ :=
    hall (s_readers 2147483647) 0 0 true (reachable_readers _ (le_refl _)) (le_refl _)
      (by unfold MAX_RWSEM; decide) (by rw [e0, readers_slot]; rfl)
      (by rw [e0, readers_slot]; rfl) (by rw [e0, readers_slot]; rfl)
  rw [readers_next] at hs
  obtain ⟨es, _⟩ := some_pair_inj hs
  rw [← es, e0, readers_slot] at hr
  simp only [State.store, Function.update_same] at hr
  have e1 : int_inc ((2147483647 : Nat) : Int) = -2147483648 := int_inc_max
  rw [e1] at hr
  exact absurd hr (by decide)

/-- Claim C3 (write_lock admission): on an ACTIVE slot, `write_lock(id)` from
caller `c` always returns; it sends the single message `OK` to `c` exactly
when the semaphore is empty (`readers_in = 0` and `writers_in = 0`), and then
only `writers_in` changes, to 1; otherwise, when the queue node is allocated,
`c` is appended at the tail of `writers_waiting`, nothing is sent and nothing
else changes.  This holds in every state, reachable or not. -/
theorem write_lock_admission (s : State) (id : Int) (c : endpoint_t) (m : Bool)
    (h0 : 0 ≤ id) (h1 : id < (MAX_RWSEM : Int))
    (hact : (s.rwsem_list id.toNat).state = RWSEM_ACTIVE) :
    ∃ s' out, do_write_lock s id c m = some (s', out) ∧
      (out.sent = [(OK, c)] ↔
        ((s.rwsem_list id.toNat).readers_in = 0 ∧ (s.rwsem_list id.toNat).writers_in = 0)) ∧
      (((s.rwsem_list id.toNat).readers_in = 0 ∧ (s.rwsem_list id.toNat).writers_in = 0) →
        s' = s.store id.toNat { s.rwsem_list id.toNat with writers_in := 1 }) ∧
      (¬ ((s.rwsem_list id.toNat).readers_in = 0 ∧ (s.rwsem_list id.toNat).writers_in = 0) →
        m = true →
        s' = s.store id.toNat { s.rwsem_list id.toNat with
              writers_waiting := (s.rwsem_list id.toNat).writers_waiting ++ [c] } ∧
        out.sent = []) := by
  obtain ⟨hc, hcl⟩ := active_check h0 h1 hact
  by_cases he : (s.rwsem_list id.toNat).readers_in = 0 ∧ (s.rwsem_list id.toNat).writers_in = 0
  · refine ⟨_, _, write_lock_grant c m hc hcl he.1 he.2, ⟨fun _ => he, fun _ => rfl⟩,
      fun _ => ?_, fun hn => absurd he hn⟩
    rw [he.2]; rfl
  · cases m
    · refine ⟨_, _, write_lock_nomem c hc hcl he, ⟨fun e => ?_, fun he' => absurd he' he⟩,
        fun he' => absurd he' he, fun _ e => ?_⟩
      · simp at e
      · cases e
    · refine ⟨_, _, write_lock_queue c hc hcl he, ⟨fun e => ?_, fun he' => absurd he' he⟩,
        fun he' => absurd he' he, fun _ _ => ⟨rfl, rfl⟩⟩
      simp at e

set_option maxRecDepth 100000 in
/-- Instance of C3: on the idle semaphore 0 writer 31 is admitted at once. -/
theorem write_lock_admission_witness :
    (w_active.rwsem_list (0 : Int).toNat).state = RWSEM_ACTIVE ∧
      ∃ s' out, do_write_lock w_active 0 31 true = some (s', out) ∧ out.sent = [(OK, 31)] ∧
        (s'.rwsem_list 0).writers_in = 1 := by
  obtain ⟨s', out, hs, hiff, hadm, _⟩ :=
    write_lock_admission w_active 0 31 true (by decide) (by decide) (by decide)
  refine ⟨by decide, s', out, hs, hiff.mpr (by decide), ?_⟩
  rw [hadm (by decide)]
  decide

/-- Claim C4 (write_unlock batch reader release): in a reachable state, on an
ACTIVE slot with `writers_in = 1`, `write_unlock(id)` returns `OK`; if
`readers_waiting` is non-empty it sends `OK` to every queued reader in queue
order and leaves `readers_in` equal to their number, `writers_in = 0`,
`readers_waiting` empty and `writers_waiting` untouched; if `readers_waiting`
is empty and `writers_waiting = w :: q` it sends `OK` to `w` alone and leaves
`writers_in = 1` and `writers_waiting = q`; if both queues are empty it sends
nothing and leaves the slot with both counts 0. -/
theorem write_unlock_batch (s : State) (h : Reachable s) (id : Int)
    (h0 : 0 ≤ id) (h1 : id < (MAX_RWSEM : Int))
    (hact : (s.rwsem_list id.toNat).state = RWSEM_ACTIVE)
    (hw : (s.rwsem_list id.toNat).writers_in = 1) :
    ((s.rwsem_list id.toNat).readers_waiting ≠ [] →
      do_write_unlock s id =
        some (s.store id.toNat { s.rwsem_list id.toNat with
                writers_in := 0, readers_waiting := [],
                readers_in := ((s.rwsem_list id.toNat).readers_waiting.length : Int) },
              { ret := OK, retid := none,
                sent := (s.rwsem_list id.toNat).readers_waiting.map (fun r => (OK, r)) })) ∧
    (∀ w q, (s.rwsem_list id.toNat).readers_waiting = [] →
      (s.rwsem_list id.toNat).writers_waiting = w :: q →
      do_write_unlock s id =
        some (s.store id.toNat { s.rwsem_list id.toNat with
                writers_in := 1, writers_waiting := q },
              { ret := OK, retid := none, sent := [(OK, w)] })) ∧
    ((s.rwsem_list id.toNat).readers_waiting = [] →
      (s.rwsem_list id.toNat).writers_waiting = [] →
      do_write_unlock s id =
        some (s.store id.toNat { s.rwsem_list id.toNat with
                writers_in := 0, readers_in := 0 },
              { ret := OK, retid := none, sent := [] })) := by
  obtain ⟨hc, hcl⟩ := active_check h0 h1 hact
  have ok := (reachable_inv h).slots id.toNat
  have hr : (s.rwsem_list id.toNat).readers_in = 0 := ok.excl hw
  have hw0 : (s.rwsem_list id.toNat).writers_in ≠ 0 := by rw [hw]; decide
  have hw' : (s.rwsem_list id.toNat).writers_in - 1 = 0 := by rw [hw]; decide
  refine ⟨fun hq => ?_, fun w q hrq hq => ?_, fun hrq hq => ?_⟩
  · rw [write_unlock_readers hc hw0 hw' hcl hq, hw', hr, zero_add]
  · rw [write_unlock_writer hc hw0 hw' hcl hrq hq, hw', zero_add]
  · rw [write_unlock_idle hc hw0 hw' hcl hrq hq]
    simp only [hw', hr]

set_option maxRecDepth 100000 in
/-- Instance of C4: when writer 11 leaves, the queued readers 12 and 13 are
both let in, in that order, and the queued writer 14 keeps waiting. -/
theorem write_unlock_batch_witness :
    Reachable w_writer ∧ (w_writer.rwsem_list (0 : Int).toNat).state = RWSEM_ACTIVE ∧
      (w_writer.rwsem_list (0 : Int).toNat).writers_in = 1 ∧
      ∃ s', do_write_unlock w_writer 0 =
          some (s', { ret := OK, retid := none, sent := [(OK, 12), (OK, 13)] }) ∧
        (s'.rwsem_list 0).readers_in = 2 ∧ (s'.rwsem_list 0).writers_waiting = [14] :=
  ⟨reachable_after _, by decide, by decide, _,
    (write_unlock_batch w_writer (reachable_after _) 0 (by decide) (by decide) (by decide)
      (by decide)).1 (by decide), by decide, by decide⟩

/-- Claim C5 (read_unlock wake-up rule): in a reachable state, on an ACTIVE
slot with `readers_in ≥ 1`, `read_unlock(id)` returns `OK` and decrements
`readers_in`; if `readers_in` was 1 and `writers_waiting = w :: q` it also sets
`writers_in = 1`, leaves `writers_waiting = q` and sends `OK` to `w` alone; in
every other case it sends nothing and changes no queue.  `readers_waiting` is
the same afterwards in all cases. -/
theorem read_unlock_wakeup (s : State) (h : Reachable s) (id : Int)
    (h0 : 0 ≤ id) (h1 : id < (MAX_RWSEM : Int))
    (hact : (s.rwsem_list id.toNat).state = RWSEM_ACTIVE)
    (hr : 1 ≤ (s.rwsem_list id.toNat).readers_in) :
    (∀ w q, (s.rwsem_list id.toNat).readers_in = 1 →
      (s.rwsem_list id.toNat).writers_waiting = w :: q →
      do_read_unlock s id =
        some (s.store id.toNat { s.rwsem_list id.toNat with
                readers_in := 0, writers_in := 1, writers_waiting := q },
              { ret := OK, retid := none, sent := [(OK, w)] })) ∧
    (((s.rwsem_list id.toNat).readers_in ≠ 1 ∨
        (s.rwsem_list id.toNat).writers_waiting = []) →
      do_read_unlock s id =
        some (s.store id.toNat { s.rwsem_list id.toNat with
                readers_in := (s.rwsem_list id.toNat).readers_in - 1 },
              { ret := OK, retid := none, sent := [] })) := by
  obtain ⟨hc, hcl⟩ := active_check h0 h1 hact
  have ok := (reachable_inv h).slots id.toNat
  have hr0 : (s.rwsem_list id.toNat).readers_in ≠ 0 := by omega
  have hw : (s.rwsem_list id.toNat).writers_in = 0 := slot_writers_zero ok hr0
  refine ⟨fun w q h1r hq => ?_, fun hcase => ?_⟩
  · have hr' : int_dec (s.rwsem_list id.toNat).readers_in = 0 := int_dec_eq_zero.mpr h1r
    rw [read_unlock_wake hc hr0 hr' hcl hq, hr', hw, zero_add]
  · by_cases hr' : int_dec (s.rwsem_list id.toNat).readers_in = 0
    · rcases hcase with hne | hq
      · exact absurd (int_dec_eq_zero.mp hr') hne
      · rw [read_unlock_idle hc hr0 hr' hcl hq, int_dec_of_pos hr]
    · rw [read_unlock_not_last hc hr0 hr', int_dec_of_pos hr]

set_option maxRecDepth 100000 in
/-- Instance of C5: when the only reader 11 leaves, the queued writer 12 is
woken and holds the lock. -/
theorem read_unlock_wakeup_witness :
    Reachable w_reader ∧ (w_reader.rwsem_list (0 : Int).toNat).state = RWSEM_ACTIVE ∧
      1 ≤ (w_reader.rwsem_list (0 : Int).toNat).readers_in ∧
      ∃ s', do_read_unlock w_reader 0 =
          some (s', { ret := OK, retid := none, sent := [(OK, 12)] }) ∧
        (s'.rwsem_list 0).writers_in = 1 ∧ (s'.rwsem_list 0).readers_in = 0 :=
  ⟨reachable_after _, by decide, by decide, _,
    (read_unlock_wakeup w_reader (reachable_after _) 0 (by decide) (by decide) (by decide)
      (by decide)).1 12 [] (by decide) (by decide), by decide, by decide⟩

/-- Claim C6 (deletion drain on the last unlock): in a reachable state, on a
CLOSED slot, an unlock that returns `OK` and leaves both counts 0 (the
`read_unlock` of the last reader, or the `write_unlock` of the writer) sends
`EINTR` to every endpoint of `readers_waiting` in queue order, then `EINTR` to
every endpoint of `writers_waiting` in queue order, sends nothing else, empties
both queues and sets the slot FREE; an unlock that still leaves a holder sends
no message and leaves the queues and the state CLOSED unchanged.  The first
three parts give the result of each unlock (in the second one the count stored
is `int_dec readers_in`, which is `readers_in - 1` unless the `int` is at
`INT_MIN`), the last one states the claim for any unlock that returned `OK`. -/
theorem closed_unlock_drain (s : State) (h : Reachable s) (id : Int)
    (h0 : 0 ≤ id) (h1 : id < (MAX_RWSEM : Int))
    (hcl : (s.rwsem_list id.toNat).state = RWSEM_CLOSED) :
    ((s.rwsem_list id.toNat).readers_in = 1 →
      do_read_unlock s id =
        some (s.store id.toNat { s.rwsem_list id.toNat with
                readers_in := 0, writers_in := 0, readers_waiting := [],
                writers_waiting := [], state := RWSEM_FREE },
              { ret := OK, retid := none,
                sent := (s.rwsem_list id.toNat).readers_waiting.map (fun r => (EINTR, r)) ++
                  (s.rwsem_list id.toNat).writers_waiting.map (fun w => (EINTR, w)) })) ∧
    ((s.rwsem_list id.toNat).readers_in ≠ 0 → (s.rwsem_list id.toNat).readers_in ≠ 1 →
      do_read_unlock s id =
        some (s.store id.toNat { s.rwsem_list id.toNat with
                readers_in := int_dec (s.rwsem_list id.toNat).readers_in },
              { ret := OK, retid := none, sent := [] }) ∧
      ((s.rwsem_list id.toNat).readers_in ≠ INT_MIN →
        int_dec (s.rwsem_list id.toNat).readers_in =
          (s.rwsem_list id.toNat).readers_in - 1)) ∧
    ((s.rwsem_list id.toNat).writers_in ≠ 0 →
      do_write_unlock s id =
        some (s.store id.toNat { s.rwsem_list id.toNat with
                readers_in := 0, writers_in := 0, readers_waiting := [],
                writers_waiting := [], state := RWSEM_FREE },
              { ret := OK, retid := none,
                sent := (s.rwsem_list id.toNat).readers_waiting.map (fun r => (EINTR, r)) ++
                  (s.rwsem_list id.toNat).writers_waiting.map (fun w => (EINTR, w)) })) ∧
    (∀ s' out, (do_read_unlock s id = some (s', out) ∨ do_write_unlock s id = some (s', out)) →
      out.ret = OK →
      (((s'.rwsem_list id.toNat).readers_in = 0 ∧ (s'.rwsem_list id.toNat).writers_in = 0) →
        out.sent = (s.rwsem_list id.toNat).readers_waiting.map (fun r => (EINTR, r)) ++
            (s.rwsem_list id.toNat).writers_waiting.map (fun w => (EINTR, w)) ∧
          (s'.rwsem_list id.toNat).state = RWSEM_FREE ∧
          (s'.rwsem_list id.toNat).readers_waiting = [] ∧
          (s'.rwsem_list id.toNat).writers_waiting = []) ∧
      (¬ ((s'.rwsem_list id.toNat).readers_in = 0 ∧ (s'.rwsem_list id.toNat).writers_in = 0) →
        out.sent = [] ∧ (s'.rwsem_list id.toNat).state = RWSEM_CLOSED ∧
        (s'.rwsem_list id.toNat).readers_waiting = (s.rwsem_list id.toNat).readers_waiting ∧
        (s'.rwsem_list id.toNat).writers_waiting = (s.rwsem_list id.toNat).writers_waiting)) := by
  have hc := closed_check h0 h1 hcl
  have ok := (reachable_inv h).slots id.toNat
  have e1 : (s.rwsem_list id.toNat).readers_in = 1 →
      do_read_unlock s id =
        some (s.store id.toNat { s.rwsem_list id.toNat with
                readers_in := 0, writers_in := 0, readers_waiting := [],
                writers_waiting := [], state := RWSEM_FREE },
              { ret := OK, retid := none,
                sent := (s.rwsem_list id.toNat).readers_waiting.map (fun r => (EINTR, r)) ++
                  (s.rwsem_list id.toNat).writers_waiting.map (fun w => (EINTR, w)) }) := by
    intro hr1
    have hr0 : (s.rwsem_list id.toNat).readers_in ≠ 0 := by omega
    have hr' : int_dec (s.rwsem_list id.toNat).readers_in = 0 := int_dec_eq_zero.mpr hr1
    have hw : (s.rwsem_list id.toNat).writers_in = 0 := slot_writers_zero ok hr0
    rw [read_unlock_drain hc hr0 hr' hcl hw]
    simp only [hr', hw]
  have e2 : (s.rwsem_list id.toNat).readers_in ≠ 0 → (s.rwsem_list id.toNat).readers_in ≠ 1 →
      do_read_unlock s id =
        some (s.store id.toNat { s.rwsem_list id.toNat with
                readers_in := int_dec (s.rwsem_list id.toNat).readers_in },
              { ret := OK, retid := none, sent := [] }) ∧
      ((s.rwsem_list id.toNat).readers_in ≠ INT_MIN →
        int_dec (s.rwsem_list id.toNat).readers_in =
          (s.rwsem_list id.toNat).readers_in - 1) := by
    intro hr0 hr1
    exact ⟨read_unlock_not_last hc hr0 (fun e => hr1 (int_dec_eq_zero.mp e)),
      fun hne => int_dec_of_ne hne⟩
  have e3 : (s.rwsem_list id.toNat).writers_in ≠ 0 →
      do_write_unlock s id =
        some (s.store id.toNat { s.rwsem_list id.toNat with
                readers_in := 0, writers_in := 0, readers_waiting := [],
                writers_waiting := [], state := RWSEM_FREE },
              { ret := OK, retid := none,
                sent := (s.rwsem_list id.toNat).readers_waiting.map (fun r => (EINTR, r)) ++
                  (s.rwsem_list id.toNat).writers_waiting.map (fun w => (EINTR, w)) }) := by
    intro hw0
    have hw1 := slot_writers_one ok hw0
    have hw' : (s.rwsem_list id.toNat).writers_in - 1 = 0 := by omega
    have hr : (s.rwsem_list id.toNat).readers_in = 0 := ok.excl hw1
    rw [write_unlock_drain hc hw0 hw' hcl hr]
    simp only [hw', hr]
  refine ⟨e1, e2, e3, ?_⟩
  intro s' out hstep hret
  rcases hstep with hstep | hstep
  · by_cases hr0 : (s.rwsem_list id.toNat).readers_in = 0
    · rw [read_unlock_eperm hc hr0] at hstep
      rw [← (some_pair_inj hstep).2] at hret
      cases hret
    · by_cases hr1 : (s.rwsem_list id.toNat).readers_in = 1
      · rw [e1 hr1] at hstep
        obtain ⟨es, eo⟩ := some_pair_inj hstep
        rw [← es, ← eo]
        simp [State.store]
      · rw [(e2 hr0 hr1).1] at hstep
        obtain ⟨es, eo⟩ := some_pair_inj hstep
        rw [← es, ← eo]
        have hne : int_dec (s.rwsem_list id.toNat).readers_in ≠ 0 :=
          fun e => hr1 (int_dec_eq_zero.mp e)
        simp [State.store, hne, hcl]
  · by_cases hw0 : (s.rwsem_list id.toNat).writers_in = 0
    · rw [write_unlock_eperm hc hw0] at hstep
      rw [← (some_pair_inj hstep).2] at hret
      cases hret
    · rw [e3 hw0] at hstep
      obtain ⟨es, eo⟩ := some_pair_inj hstep
      rw [← es, ← eo]
      simp [State.store]

set_option maxRecDepth 100000 in
/-- Instance of C6: semaphore 0 was deleted while writer 11 held it; when the
writer leaves, reader 12 and then writer 13 receive `EINTR` and the slot is
free. -/
theorem closed_unlock_drain_witness :
    Reachable w_closed ∧ (w_closed.rwsem_list (0 : Int).toNat).state = RWSEM_CLOSED ∧
      (w_closed.rwsem_list (0 : Int).toNat).writers_in ≠ 0 ∧
      ∃ s', do_write_unlock w_closed 0 =
          some (s', { ret := OK, retid := none, sent := [(EINTR, 12), (EINTR, 13)] }) ∧
        (s'.rwsem_list 0).state = RWSEM_FREE :=
  ⟨reachable_after _, by decide, by decide, _,
    (closed_unlock_drain w_closed (reachable_after _) 0 (by decide) (by decide)
      (by decide)).2.2.1 (by decide), by decide⟩

/-- Claim C7 (delete result and effect): for every integer `id`, `delete(id)`
returns; it returns `ENOENT` iff `id` is outside `[0, 500)` or slot `id` is
FREE, `EINTR` iff the slot is CLOSED and `OK` iff the slot is ACTIVE; unless it
returns `OK` the whole table is unchanged and nothing is sent; on `OK` no other
slot is modified, the slot is FREE afterwards when both counts were 0, and
otherwise it is the old record with state CLOSED (counts and queues unchanged)
and nothing is sent.  This holds in every state, reachable or not. -/
theorem delete_result (s : State) (id : Int) :
    ∃ s' out, do_rwsemdel s id = some (s', out) ∧
      (out.ret = ENOENT ↔
        (id < 0 ∨ (MAX_RWSEM : Int) ≤ id ∨ (s.rwsem_list id.toNat).state = RWSEM_FREE)) ∧
      (out.ret = EINTR ↔
        (0 ≤ id ∧ id < (MAX_RWSEM : Int) ∧ (s.rwsem_list id.toNat).state = RWSEM_CLOSED)) ∧
      (out.ret = OK ↔
        (0 ≤ id ∧ id < (MAX_RWSEM : Int) ∧ (s.rwsem_list id.toNat).state = RWSEM_ACTIVE)) ∧
      (out.ret ≠ OK → s' = s ∧ out.sent = []) ∧
      (out.ret = OK →
        (∀ j, j ≠ id.toNat → s'.rwsem_list j = s.rwsem_list j) ∧
        (((s.rwsem_list id.toNat).readers_in = 0 ∧ (s.rwsem_list id.toNat).writers_in = 0) →
          (s'.rwsem_list id.toNat).state = RWSEM_FREE) ∧
        (¬ ((s.rwsem_list id.toNat).readers_in = 0 ∧ (s.rwsem_list id.toNat).writers_in = 0) →
          s'.rwsem_list id.toNat = { s.rwsem_list id.toNat with state := RWSEM_CLOSED } ∧
          out.sent = [])) := by
  by_cases hc : rwsem_check_id s.rwsem_list id = true
  · obtain ⟨h0, h1, hnf⟩ := check_id_eq_true.mp hc
    by_cases hcl : (s.rwsem_list id.toNat).state = RWSEM_CLOSED
    · refine ⟨_, _, del_closed hc hcl, ?_, ?_, ?_, fun _ => ⟨rfl, rfl⟩, fun e => ?_⟩
      · refine ⟨fun e => (by cases e), fun e => ?_⟩
        rcases e with e | e | e
        · omega
        · omega
        · exact absurd e hnf
      · exact ⟨fun _ => ⟨h0, h1, hcl⟩, fun _ => rfl⟩
      · exact ⟨fun e => (by cases e), fun e => by rw [hcl] at e; cases e.2.2⟩
      · cases e
    · have hact : (s.rwsem_list id.toNat).state = RWSEM_ACTIVE := by
        cases hst : (s.rwsem_list id.toNat).state with
        | RWSEM_FREE => exact absurd hst hnf
        | RWSEM_ACTIVE => rfl
        | RWSEM_CLOSED => exact absurd hst hcl
      have hE : ¬ (id < 0 ∨ (MAX_RWSEM : Int) ≤ id ∨
          (s.rwsem_list id.toNat).state = RWSEM_FREE) := by
        intro e
        rcases e with e | e | e
        · omega
        · omega
        · exact absurd e hnf
      by_cases he : (s.rwsem_list id.toNat).readers_in = 0 ∧
          (s.rwsem_list id.toNat).writers_in = 0
      · refine ⟨_, _, del_empty hc hcl he.1 he.2, ⟨fun e => (by cases e), fun e => absurd e hE⟩,
          ⟨fun e => (by cases e), fun e => absurd e.2.2 hcl⟩,
          ⟨fun _ => ⟨h0, h1, hact⟩, fun _ => rfl⟩, fun e => absurd rfl e, fun _ => ?_⟩
        refine ⟨fun j hj => ?_, fun _ => ?_, fun hn => absurd he hn⟩
        · simp only [State.store, Function.update_noteq hj]
        · simp only [State.store, Function.update_same]
      · refine ⟨_, _, del_held hc hcl he, ⟨fun e => (by cases e), fun e => absurd e hE⟩,
          ⟨fun e => (by cases e), fun e => absurd e.2.2 hcl⟩,
          ⟨fun _ => ⟨h0, h1, hact⟩, fun _ => rfl⟩, fun e => absurd rfl e, fun _ => ?_⟩
        refine ⟨fun j hj => ?_, fun hn => absurd hn he, fun _ => ⟨?_, rfl⟩⟩
        · simp only [State.store, Function.update_noteq hj]
        · simp only [State.store, Function.update_same]
  · have hc' : rwsem_check_id s.rwsem_list id = false := by simpa using hc
    have hE := check_id_eq_false.mp hc'
    refine ⟨_, _, del_invalid hc', ⟨fun _ => hE, fun _ => rfl⟩, ⟨fun e => (by cases e), fun e => ?_⟩,
      ⟨fun e => (by cases e), fun e => ?_⟩, fun _ => ⟨rfl, rfl⟩, fun e => by cases e⟩
    · rcases hE with h | h | h
      · omega
      · omega
      · rw [e.2.2] at h; cases h
    · rcases hE with h | h | h
      · omega
      · omega
      · rw [e.2.2] at h; cases h

/-- Claim C8 (capacity error), evaluated where the code departs from it: after
`get` under the 500 keys `0, …, 499` and `delete(0)`, only 499 slots are
non-free and the key 500 is registered nowhere, yet `get(500)` returns
`EAGAIN` and leaves the table as it is. -/
theorem capacity_not_released :
    run init (gets 500 ++ [Request.del 0]) = some s_released ∧
      nonfree_count s_released.rwsem_list = 499 ∧
      (∀ i, i < MAX_RWSEM → (s_released.rwsem_list i).state ≠ RWSEM_FREE →
        (s_released.rwsem_list i).key ≠ 500) ∧
      do_rwsemget s_released 500 =
        some (s_released, { ret := EAGAIN, retid := none, sent := [] }) := by
  have hkey : ∀ i, i < MAX_RWSEM → (s_released.rwsem_list i).state ≠ RWSEM_FREE →
      (s_released.rwsem_list i).key ≠ 500 := by
    intro i hi hnf
    obtain ⟨h1, h2⟩ := released_state i hi
    rw [h2 (h1.mp hnf)]
    unfold MAX_RWSEM at hi
    show (i : Int) ≠ 500
    omega
  refine ⟨?_, released_count, hkey, ?_⟩
  · rw [run_append, run_gets 500 (by unfold MAX_RWSEM; omega), Option.some_bind, run_cons]
    simp only [step]
    have e : filled 500 = filled MAX_RWSEM := rfl
    rw [e, del_filled]
    rfl
  · exact get_full (rwsem_find_none.mpr hkey) (by simp [s_released, State.store, filled])

/-- Claim C9 (creation with rotating cursor): in a reachable state with cursor
`rwsem_next`, for a key registered in no non-free slot, when `get(key)` does
not fail with `EAGAIN` it returns `OK` with the id `(rwsem_next + k) mod 500`,
where `k < 500` is the least offset at which the slot is FREE; afterwards that
slot is ACTIVE with the given key, its `id` field equal to its index, both
counts 0 and both queues empty, every other slot is unchanged, the cursor is
`(id + 1) mod 500`, and no message is sent. -/
theorem get_creation (s : State) (h : Reachable s) (key : key_t)
    (hkey : ∀ i, i < MAX_RWSEM → (s.rwsem_list i).state ≠ RWSEM_FREE →
      (s.rwsem_list i).key ≠ key)
    (hok : do_rwsemget s key ≠ some (s, { ret := EAGAIN, retid := none, sent := [] })) :
    ∃ k, k < MAX_RWSEM ∧
      (s.rwsem_list ((s.rwsem_next + k) % MAX_RWSEM)).state = RWSEM_FREE ∧
      (∀ j, j < k → (s.rwsem_list ((s.rwsem_next + j) % MAX_RWSEM)).state ≠ RWSEM_FREE) ∧
      do_rwsemget s key =
        some ({ rwsem_list := Function.update s.rwsem_list ((s.rwsem_next + k) % MAX_RWSEM)
                  { state := RWSEM_ACTIVE, key := key,
                    id := (((s.rwsem_next + k) % MAX_RWSEM : Nat) : Int),
                    readers_in := 0, writers_in := 0, readers_waiting := [],
                    writers_waiting := [] },
                rwsem_count := s.rwsem_count + 1,
                rwsem_next := ((s.rwsem_next + k) % MAX_RWSEM + 1) % MAX_RWSEM },
              { ret := OK, retid := some (((s.rwsem_next + k) % MAX_RWSEM : Nat) : Int),
                sent := [] }) := by
  have inv := reachable_inv h
  have hfind : rwsem_find s.rwsem_list key = none := rwsem_find_none.mpr hkey
  have hfull : s.rwsem_count ≠ MAX_RWSEM := fun e => hok (get_full hfind e)
  obtain ⟨n, hn⟩ := scan_succeeds inv hfull
  obtain ⟨k, hk, e, hfree, hall⟩ := (find_free_cyclic _ _ _ inv.next_lt).mp hn
  subst e
  exact ⟨k, hk, hfree, hall, get_create hfind hfull hn⟩

set_option maxRecDepth 100000 in
/-- Instance of C9: after two creations and the deletion of the first
semaphore, the cursor stands at 2 and a new key is served from there. -/
theorem get_creation_witness :
    Reachable w_rotated ∧
      (∀ i, i < MAX_RWSEM → (w_rotated.rwsem_list i).state ≠ RWSEM_FREE →
        (w_rotated.rwsem_list i).key ≠ 9) ∧
      w_rotated.rwsem_next = 2 ∧
      ∃ k, k < MAX_RWSEM ∧
        (w_rotated.rwsem_list ((w_rotated.rwsem_next + k) % MAX_RWSEM)).state = RWSEM_FREE ∧
        ∃ s', do_rwsemget w_rotated 9 =
          some (s', { ret := OK,
                      retid := some (((w_rotated.rwsem_next + k) % MAX_RWSEM : Nat) : Int),
                      sent := [] }) := by
  have hkey : ∀ i, i < MAX_RWSEM → (w_rotated.rwsem_list i).state ≠ RWSEM_FREE →
      (w_rotated.rwsem_list i).key ≠ 9 := rwsem_find_none.mp (by decide)
  have hok : do_rwsemget w_rotated 9 ≠
      some (w_rotated, { ret := EAGAIN, retid := none, sent := [] }) := by
    intro e
    have e2 : (do_rwsemget w_rotated 9).map (fun p => p.2.ret) = some EAGAIN := by
      rw [e]; rfl
    exact absurd e2 (by decide)
  obtain ⟨k, hk, hfree, _, hget⟩ := get_creation w_rotated (reachable_after _) 9 hkey hok
  exact ⟨reachable_after _, hkey, by decide, k, hk, hfree, _, hget⟩

/-- Claim C10 (stable key lookup): in a reachable state, if `get(k)` returns
`OK` with id `i`, then after any further dispatches that leave slot `i`
non-free after each of them, `get(k)` returns `OK` with the same id `i`,
changes nothing in the table (slots, cursor, counter) and sends no message; with
no dispatch in between this is the case of two back-to-back `get(k)`. -/
theorem stable_key_lookup (s s1 s2 : State) (out : Output) (k : key_t) (i : Int)
    (h : Reachable s) (hget : do_rwsemget s k = some (s1, out)) (hret : out.ret = OK)
    (hid : out.retid = some i) (halive : Survives i.toNat s1 s2) :
    do_rwsemget s2 k = some (s2, { ret := OK, retid := some i, sent := [] }) := by
  have inv := reachable_inv h
  obtain ⟨ei, hnf, hk⟩ := get_registers inv hget hret hid
  obtain ⟨inv2, hnf2, hk2⟩ := survives_spec halive (do_rwsemget_inv inv hget) hnf
  rw [lookup_of_registered inv2 hnf2 (hk2.trans hk), ← ei]

set_option maxRecDepth 100000 in
/-- Instance of C10: `get(7)` gives id 0; after a `read_lock(0)` and a `get(9)`
the key 7 still maps to id 0. -/
theorem stable_key_lookup_witness :
    do_rwsemget w_later 7 = some (w_later, { ret := OK, retid := some 0, sent := [] }) :=
  stable_key_lookup init w_active w_later { ret := OK, retid := some 0, sent := [] } 7 0
    Reachable.init rfl rfl rfl
    (Survives.step (.get 9)
      (Survives.step (.read_lock 0 5 true) (Survives.refl _)
        (show step w_active (.read_lock 0 5 true) =
          some (after [.get 7, .read_lock 0 5 true],
            { ret := OK, retid := none, sent := [(OK, 5)] }) from rfl) (by decide))
      (show step (after [.get 7, .read_lock 0 5 true]) (.get 9) =
        some (w_later, { ret := OK, retid := some 1, sent := [] }) from rfl) (by decide))

/-- Claim C11 as amended (get after closure): in a reachable state in which
slot `i` is CLOSED under key `k`, `get(k)` allocates nothing: it returns `OK`
with the id `i` of the CLOSED slot itself, leaves the whole table unchanged and
sends no message, because `rwsem_find` matches every non-free slot. -/
theorem get_after_closure (s : State) (h : Reachable s) (i : Nat) (k : key_t)
    (hcl : (s.rwsem_list i).state = RWSEM_CLOSED) (hk : (s.rwsem_list i).key = k) :
    do_rwsemget s k = some (s, { ret := OK, retid := some (i : Int), sent := [] }) :=
  lookup_of_registered (reachable_inv h) (by rw [hcl]; decide) hk

set_option maxRecDepth 100000 in
/-- Instance of C11 as amended: semaphore 0 of `w_closed` is CLOSED under key 7
and `get(7)` still returns id 0. -/
theorem get_after_closure_witness :
    Reachable w_closed ∧ (w_closed.rwsem_list 0).state = RWSEM_CLOSED ∧
      (w_closed.rwsem_list 0).key = 7 ∧
      do_rwsemget w_closed 7 =
        some (w_closed, { ret := OK, retid := some ((0 : Nat) : Int), sent := [] }) :=
  ⟨reachable_after _, by decide, by decide,
    get_after_closure w_closed (reachable_after _) 0 7 (by decide) (by decide)⟩

set_option maxRecDepth 100000 in
/-- Counterexample to C11 as stated: it is not true that in every reachable
state with slot `i` CLOSED under key `k` and a table that is not full, `get(k)`
returns an id `j ≠ i` naming a freshly initialised ACTIVE slot.  In `w_closed`
slot 0 is CLOSED under key 7 and `get(7)` returns id 0. -/
theorem get_after_closure_counterexample :
    ¬ ∀ (s : State) (i : Nat) (k : key_t), Reachable s →
        (s.rwsem_list i).state = RWSEM_CLOSED → (s.rwsem_list i).key = k →
        nonfree_count s.rwsem_list < MAX_RWSEM → s.rwsem_count ≠ MAX_RWSEM →
        ∃ (j : Nat) (s' : State),
          do_rwsemget s k = some (s', { ret := OK, retid := some (j : Int), sent := [] }) ∧
          j ≠ i ∧
          s'.rwsem_list j =
            { state := RWSEM_ACTIVE, key := k, id := (j : Int), readers_in := 0,
              writers_in := 0, readers_waiting := [], writers_waiting := [] } := by
  intro hall
  obtain ⟨j, s', hget, hne, _⟩ :=
    hall w_closed 0 7 (reachable_after _) (by decide) (by decide) (by decide) (by decide)
  have e : do_rwsemget w_closed 7 =
      some (w_closed, { ret := OK, retid := some ((0 : Nat) : Int), sent := [] }) :=
    lookup_of_registered (reachable_inv (reachable_after _)) (by decide) (by decide)
  rw [e] at hget
  have e2 := (some_pair_inj hget).2
  simp only [Output.mk.injEq, Option.some.injEq, Nat.cast_inj, and_true, true_and] at e2
  exact hne e2.symm

/-- Claim C12 (unlock errors): in a reachable state, for every integer `id`,
`read_unlock(id)` returns; it returns `ENOENT` iff `id` is outside `[0, 500)` or
slot `id` is FREE, otherwise `EPERM` iff `readers_in = 0`, otherwise `OK`;
`write_unlock(id)` does the same with `writers_in`.  Unless the result is `OK`
the whole table is unchanged and nothing is sent.  Neither handler takes the
calling endpoint, so the outcome cannot depend on it. -/
theorem unlock_errors (s : State) (h : Reachable s) (id : Int) :
    (∃ s' out, do_read_unlock s id = some (s', out) ∧
      (out.ret = ENOENT ↔
        (id < 0 ∨ (MAX_RWSEM : Int) ≤ id ∨ (s.rwsem_list id.toNat).state = RWSEM_FREE)) ∧
      (out.ret = EPERM ↔
        (¬ (id < 0 ∨ (MAX_RWSEM : Int) ≤ id ∨ (s.rwsem_list id.toNat).state = RWSEM_FREE) ∧
          (s.rwsem_list id.toNat).readers_in = 0)) ∧
      (out.ret = OK ↔
        (¬ (id < 0 ∨ (MAX_RWSEM : Int) ≤ id ∨ (s.rwsem_list id.toNat).state = RWSEM_FREE) ∧
          ¬ (s.rwsem_list id.toNat).readers_in = 0)) ∧
      (out.ret ≠ OK → s' = s ∧ out.sent = [])) ∧
    (∃ s' out, do_write_unlock s id = some (s', out) ∧
      (out.ret = ENOENT ↔
        (id < 0 ∨ (MAX_RWSEM : Int) ≤ id ∨ (s.rwsem_list id.toNat).state = RWSEM_FREE)) ∧
      (out.ret = EPERM ↔
        (¬ (id < 0 ∨ (MAX_RWSEM : Int) ≤ id ∨ (s.rwsem_list id.toNat).state = RWSEM_FREE) ∧
          (s.rwsem_list id.toNat).writers_in = 0)) ∧
      (out.ret = OK ↔
        (¬ (id < 0 ∨ (MAX_RWSEM : Int) ≤ id ∨ (s.rwsem_list id.toNat).state = RWSEM_FREE) ∧
          ¬ (s.rwsem_list id.toNat).writers_in = 0)) ∧
      (out.ret ≠ OK → s' = s ∧ out.sent = [])) := by
  have inv := reachable_inv h
  constructor
  · exact unlock_outcome (fun hi => read_unlock_invalid (check_id_eq_false.mpr hi))
      (fun hi hz => read_unlock_eperm (check_of_not_invalid hi) hz)
      (fun hi hz => read_unlock_ok inv (check_of_not_invalid hi) hz)
  · exact unlock_outcome (fun hi => write_unlock_invalid (check_id_eq_false.mpr hi))
      (fun hi hz => write_unlock_eperm (check_of_not_invalid hi) hz)
      (fun hi hz => write_unlock_ok inv (check_of_not_invalid hi) hz)

set_option maxRecDepth 100000 in
/-- Instance of C12: on the idle semaphore 0 both unlocks return `EPERM`. -/
theorem unlock_errors_witness :
    Reachable w_active ∧
      (∃ s' out, do_read_unlock w_active 0 = some (s', out) ∧ out.ret = EPERM) ∧
      (∃ s' out, do_write_unlock w_active 0 = some (s', out) ∧ out.ret = EPERM) := by
  obtain ⟨⟨s1, o1, e1, _, p1, _⟩, ⟨s2, o2, e2, _, p2, _⟩⟩ :=
    unlock_errors w_active (reachable_after _) 0
  exact ⟨reachable_after _, ⟨s1, o1, e1, p1.mpr (by decide)⟩, ⟨s2, o2, e2, p2.mpr (by decide)⟩⟩

/-- Claim C13 (lock failure is atomic): for every caller `c` and integer `id`,
`read_lock(id)` and `write_lock(id)` send exactly the one message `ENOENT` to
`c` when `id` is outside `[0, 500)` or its slot is FREE, exactly `EINTR` to `c`
when the slot is CLOSED, and exactly `ENOMEM` to `c` when the caller would have
to be queued and the allocation fails; in all three cases the resulting table
is the table before the call.  This holds in every state, reachable or not. -/
theorem lock_failure_atomic (s : State) (id : Int) (c : endpoint_t) (m : Bool) :
    ((id < 0 ∨ (MAX_RWSEM : Int) ≤ id ∨ (s.rwsem_list id.toNat).state = RWSEM_FREE) →
      do_read_lock s id c m = some (s, { ret := OK, retid := none, sent := [(ENOENT, c)] }) ∧
      do_write_lock s id c m =
        some (s, { ret := OK, retid := none, sent := [(ENOENT, c)] })) ∧
    (0 ≤ id → id < (MAX_RWSEM : Int) → (s.rwsem_list id.toNat).state = RWSEM_CLOSED →
      do_read_lock s id c m = some (s, { ret := OK, retid := none, sent := [(EINTR, c)] }) ∧
      do_write_lock s id c m =
        some (s, { ret := OK, retid := none, sent := [(EINTR, c)] })) ∧
    (0 ≤ id → id < (MAX_RWSEM : Int) → (s.rwsem_list id.toNat).state = RWSEM_ACTIVE →
      ¬ ((s.rwsem_list id.toNat).writers_in = 0 ∧
        (s.rwsem_list id.toNat).writers_waiting = []) →
      do_read_lock s id c false =
        some (s, { ret := OK, retid := none, sent := [(ENOMEM, c)] })) ∧
    (0 ≤ id → id < (MAX_RWSEM : Int) → (s.rwsem_list id.toNat).state = RWSEM_ACTIVE →
      ¬ ((s.rwsem_list id.toNat).readers_in = 0 ∧ (s.rwsem_list id.toNat).writers_in = 0) →
      do_write_lock s id c false =
        some (s, { ret := OK, retid := none, sent := [(ENOMEM, c)] })) := by
  refine ⟨fun hi => ?_, fun h0 h1 hcl => ?_, fun h0 h1 hact hq => ?_, fun h0 h1 hact he => ?_⟩
  · have hc := check_id_eq_false.mpr hi
    exact ⟨read_lock_invalid c m hc, write_lock_invalid c m hc⟩
  · have hc := closed_check h0 h1 hcl
    exact ⟨read_lock_closed c m hc hcl, write_lock_closed c m hc hcl⟩
  · obtain ⟨hc, hcl⟩ := active_check h0 h1 hact
    exact read_lock_nomem c hc hcl hq
  · obtain ⟨hc, hcl⟩ := active_check h0 h1 hact
    exact write_lock_nomem c hc hcl he

/-- Claim C14 (key uniqueness): in a reachable state any two distinct non-free
slots have different keys. -/
theorem key_uniqueness (s : State) (h : Reachable s) (i j : Nat) (hij : i ≠ j)
    (hi : (s.rwsem_list i).state ≠ RWSEM_FREE) (hj : (s.rwsem_list j).state ≠ RWSEM_FREE) :
    (s.rwsem_list i).key ≠ (s.rwsem_list j).key :=
  fun e => hij ((reachable_inv h).key_unique i j hi hj e)

set_option maxRecDepth 100000 in
/-- Instance of C14: the two semaphores of `w_two`. -/
theorem key_uniqueness_witness :
    Reachable w_two ∧ (w_two.rwsem_list 0).state ≠ RWSEM_FREE ∧
      (w_two.rwsem_list 1).state ≠ RWSEM_FREE ∧
      (w_two.rwsem_list 0).key ≠ (w_two.rwsem_list 1).key :=
  ⟨reachable_after _, by decide, by decide,
    key_uniqueness w_two (reachable_after _) 0 1 (by decide) (by decide) (by decide)⟩

/-- Claim C15 (bookkeeping counter), evaluated where the code departs from it:
for every key `k`, after `get(k)` and `delete(0)` from the initial table no
slot is non-free, yet `rwsem_count` is 1. -/
theorem counter_not_released (k : key_t) :
    run init [.get k, .del 0] = some (s_gone k) ∧
      nonfree_count (s_gone k).rwsem_list = 0 ∧ (s_gone k).rwsem_count = 1 := by
  refine ⟨?_, ?_, rfl⟩
  · rw [run_cons]
    simp only [step]
    rw [first_get k]
    show run (s_first k) [Request.del 0] = some (s_gone k)
    rw [run_cons]
    simp only [step]
    rw [then_delete k]
    rfl
  · unfold nonfree_count
    rw [List.countP_eq_zero]
    intro i _
    simp [gone_free k i]

/-- Claim C16 (FREE-slot invariant): in a reachable state every FREE slot has
`readers_in = 0`, `writers_in = 0` and both wait queues empty. -/
theorem free_slot_clean (s : State) (h : Reachable s) (i : Nat)
    (hf : (s.rwsem_list i).state = RWSEM_FREE) :
    (s.rwsem_list i).readers_in = 0 ∧ (s.rwsem_list i).writers_in = 0 ∧
      (s.rwsem_list i).readers_waiting = [] ∧ (s.rwsem_list i).writers_waiting = [] :=
  ((reachable_inv h).slots i).free_clean hf

set_option maxRecDepth 100000 in
/-- Instance of C16: slot 0 of `w_drained`, reclaimed while a reader and a
writer were queued on it. -/
theorem free_slot_clean_witness :
    Reachable w_drained ∧ (w_drained.rwsem_list 0).state = RWSEM_FREE ∧
      (w_drained.rwsem_list 0).readers_in = 0 ∧ (w_drained.rwsem_list 0).writers_in = 0 ∧
      (w_drained.rwsem_list 0).readers_waiting = [] ∧
      (w_drained.rwsem_list 0).writers_waiting = [] :=
  ⟨reachable_after _, by decide, free_slot_clean w_drained (reachable_after _) 0 (by decide)⟩

/-- Claim C17 as amended (basic get/delete scenario): for every key `k`,
starting from the initial table, `get(k)` returns id 0, a second `get(k)`
returns id 0 and changes nothing, `delete(0)` returns `OK` and leaves slot 0
FREE, and the following `get(k)` returns id 1: the cursor was moved to 1 by the
first creation, so the new semaphore is created in slot 1. -/
theorem basic_scenario (k : key_t) :
    do_rwsemget init k = some (s_first k, { ret := OK, retid := some 0, sent := [] }) ∧
      do_rwsemget (s_first k) k =
        some (s_first k, { ret := OK, retid := some 0, sent := [] }) ∧
      do_rwsemdel (s_first k) 0 = some (s_gone k, { ret := OK, retid := none, sent := [] }) ∧
      ((s_gone k).rwsem_list 0).state = RWSEM_FREE ∧
      do_rwsemget (s_gone k) k =
        some (s_again k, { ret := OK, retid := some 1, sent := [] }) ∧
      (s_again k).rwsem_list 1 = fresh k 1 :=
  ⟨first_get k, second_get k, then_delete k, gone_free k 0, third_get k, by simp [s_again]⟩

/-- Counterexample to C17 as stated, at key 7: no run of `get(7)`, `get(7)`,
`delete(0)`, `get(7)` from the initial table ends with the last call returning
id 0. -/
theorem basic_scenario_counterexample :
    ¬ ∃ s1 s2 s3 s4 : State,
      do_rwsemget init 7 = some (s1, { ret := OK, retid := some 0, sent := [] }) ∧
      do_rwsemget s1 7 = some (s2, { ret := OK, retid := some 0, sent := [] }) ∧
      do_rwsemdel s2 0 = some (s3, { ret := OK, retid := none, sent := [] }) ∧
      (s3.rwsem_list 0).state = RWSEM_FREE ∧
      do_rwsemget s3 7 = some (s4, { ret := OK, retid := some 0, sent := [] }) := by
  rintro ⟨s1, s2, s3, s4, e1, e2, e3, _, e4⟩
  rw [first_get 7] at e1
  obtain ⟨h1, _⟩ := some_pair_inj e1
  subst h1
  rw [second_get 7] at e2
  obtain ⟨h2, _⟩ := some_pair_inj e2
  subst h2
  rw [then_delete 7] at e3
  obtain ⟨h3, _⟩ := some_pair_inj e3
  subst h3
  rw [third_get 7] at e4
  have e := (some_pair_inj e4).2
  simp at e

/-- Claim C18 (no stranded waiter): in a reachable state, a non-free slot with
no holder is ACTIVE and has both wait queues empty; a CLOSED slot has a holder;
on an ACTIVE slot a queued reader or writer implies a holder; and `delete` of an
ACTIVE semaphore with no holder returns `OK` and sends no message. -/
theorem no_stranded_waiter (s : State) (h : Reachable s) (i : Nat) :
    ((s.rwsem_list i).state ≠ RWSEM_FREE → (s.rwsem_list i).readers_in = 0 →
      (s.rwsem_list i).writers_in = 0 →
      (s.rwsem_list i).state = RWSEM_ACTIVE ∧ (s.rwsem_list i).readers_waiting = [] ∧
        (s.rwsem_list i).writers_waiting = []) ∧
    ((s.rwsem_list i).state = RWSEM_CLOSED →
      (s.rwsem_list i).readers_in ≠ 0 ∨ (s.rwsem_list i).writers_in ≠ 0) ∧
    ((s.rwsem_list i).state = RWSEM_ACTIVE →
      ((s.rwsem_list i).readers_waiting ≠ [] ∨ (s.rwsem_list i).writers_waiting ≠ []) →
      (s.rwsem_list i).readers_in ≠ 0 ∨ (s.rwsem_list i).writers_in ≠ 0) ∧
    (i < MAX_RWSEM → (s.rwsem_list i).state = RWSEM_ACTIVE →
      (s.rwsem_list i).readers_in = 0 → (s.rwsem_list i).writers_in = 0 →
      ∃ s', do_rwsemdel s (i : Int) = some (s', { ret := OK, retid := none, sent := [] })) := by
  have ok := (reachable_inv h).slots i
  have hidle : (s.rwsem_list i).state ≠ RWSEM_FREE → (s.rwsem_list i).readers_in = 0 →
      (s.rwsem_list i).writers_in = 0 →
      (s.rwsem_list i).state = RWSEM_ACTIVE ∧ (s.rwsem_list i).readers_waiting = [] ∧
        (s.rwsem_list i).writers_waiting = [] := by
    intro hnf hr hw
    have hact : (s.rwsem_list i).state = RWSEM_ACTIVE := by
      cases hst : (s.rwsem_list i).state with
      | RWSEM_FREE => exact absurd hst hnf
      | RWSEM_ACTIVE => rfl
      | RWSEM_CLOSED =>
        rcases ok.closed_held hst with h1 | h1
        · exact absurd hr h1
        · exact absurd hw h1
    exact ⟨hact, ok.idle_clean hact hr hw⟩
  refine ⟨hidle, ok.closed_held, fun hact hq => ?_, fun hi hact hr hw => ?_⟩
  · by_contra hn
    push_neg at hn
    obtain ⟨_, hrq, hwq⟩ := hidle (by rw [hact]; decide) hn.1 hn.2
    rcases hq with hq | hq
    · exact hq hrq
    · exact hq hwq
  · obtain ⟨_, hrq, hwq⟩ := hidle (by rw [hact]; decide) hr hw
    have e : ((i : Int)).toNat = i := Int.toNat_ofNat i
    have hc : rwsem_check_id s.rwsem_list (i : Int) = true := by
      rw [check_id_eq_true, e]
      exact ⟨Int.natCast_nonneg i, by exact_mod_cast hi, by rw [hact]; decide⟩
    have hdel := del_empty hc (by rw [e, hact]; decide) (by rw [e]; exact hr)
      (by rw [e]; exact hw)
    rw [e, hrq, hwq] at hdel
    exact ⟨_, hdel⟩

set_option maxRecDepth 100000 in
/-- Instance of C18: in `w_writer` readers wait on semaphore 0, and writer 11
holds it. -/
theorem no_stranded_waiter_witness :
    Reachable w_writer ∧ (w_writer.rwsem_list 0).state = RWSEM_ACTIVE ∧
      (w_writer.rwsem_list 0).readers_waiting ≠ [] ∧
      ((w_writer.rwsem_list 0).readers_in ≠ 0 ∨ (w_writer.rwsem_list 0).writers_in ≠ 0) :=
  ⟨reachable_after _, by decide, by decide,
    (no_stranded_waiter w_writer (reachable_after _) 0).2.2.1 (by decide) (Or.inl (by decide))⟩

/-- Claim C19 (assertions are unreachable): every sequence of requests run from
the initial table returns at every dispatch, and so does any further request:
no `assert` of `rwsem_queue_pop`, `rwsem_empty`, `rwsem_delete` or
`do_write_unlock` fails (a failed assertion makes the handler yield `none`). -/
theorem assertions_unreachable (reqs : List Request) :
    ∃ s, run init reqs = some s ∧ ∀ req, ∃ s' out, step s req = some (s', out) := by
  obtain ⟨s, e, inv⟩ := run_total init_inv reqs
  exact ⟨s, e, fun req => step_total inv req⟩

/-- Claim C20 (the free-slot scan terminates): in a reachable state the cursor
is below 500, `rwsem_count` is at most 500 and at least the number of non-free
slots; when `rwsem_count ≠ 500` some slot is FREE and the scan started at the
cursor stops at the first FREE slot in cyclic order after `k ≤ 499` advances
(`k + 1` tests suffice). -/
theorem scan_terminates (s : State) (h : Reachable s) :
    s.rwsem_next < MAX_RWSEM ∧ s.rwsem_count ≤ MAX_RWSEM ∧
      nonfree_count s.rwsem_list ≤ s.rwsem_count ∧
      (s.rwsem_count ≠ MAX_RWSEM →
        (∃ i, i < MAX_RWSEM ∧ (s.rwsem_list i).state = RWSEM_FREE) ∧
        ∃ k, k ≤ 499 ∧
          (s.rwsem_list ((s.rwsem_next + k) % MAX_RWSEM)).state = RWSEM_FREE ∧
          (∀ j, j < k → (s.rwsem_list ((s.rwsem_next + j) % MAX_RWSEM)).state ≠ RWSEM_FREE) ∧
          find_free s.rwsem_list (k + 1) s.rwsem_next =
            some ((s.rwsem_next + k) % MAX_RWSEM) ∧
          find_free s.rwsem_list MAX_RWSEM s.rwsem_next =
            some ((s.rwsem_next + k) % MAX_RWSEM)) := by
  have inv := reachable_inv h
  refine ⟨inv.next_lt, inv.count_le, inv.nonfree_le, fun hfull => ?_⟩
  have hfree : ∃ i, i < MAX_RWSEM ∧ (s.rwsem_list i).state = RWSEM_FREE := by
    apply exists_free_of_count_lt
    have := inv.nonfree_le
    have := inv.count_le
    omega
  obtain ⟨n, hn⟩ := scan_succeeds inv hfull
  obtain ⟨k, hk, e, hf, hall⟩ := (find_free_cyclic _ _ _ inv.next_lt).mp hn
  subst e
  refine ⟨hfree, k, ?_, hf, hall, ?_, hn⟩
  · unfold MAX_RWSEM at hk; omega
  · exact (find_free_cyclic_fuel _ _ _ _ inv.next_lt).mpr ⟨k, by omega, rfl, hf, hall⟩

set_option maxRecDepth 100000 in
/-- Instance of C20: in `w_rotated` the counter is 2, one slot is non-free and
the scan stops. -/
theorem scan_terminates_witness :
    Reachable w_rotated ∧ w_rotated.rwsem_next = 2 ∧ w_rotated.rwsem_count = 2 ∧
      nonfree_count w_rotated.rwsem_list = 1 ∧
      ∃ k, k ≤ 499 ∧
        find_free w_rotated.rwsem_list MAX_RWSEM w_rotated.rwsem_next =
          some ((w_rotated.rwsem_next + k) % MAX_RWSEM) := by
  obtain ⟨_, _, _, hscan⟩ := scan_terminates w_rotated (reachable_after _)
  obtain ⟨_, k, hk, _, _, _, e⟩ := hscan (by decide)
  exact ⟨reachable_after _, by decide, by decide, by decide, k, hk, e⟩

end Rwsem
